import Mathlib

/-! # SOCKS5 username/password authentication (RFC 1929) state machine

A shallow embedding of `SOCKSAuthUsernamePassword::State::Do` from
`chromium_src/net/socket/socks_auth_username_password.cc`.

* `std::string` values are lists of bytes, a byte is a `Fin 256`;
* `size_t` arithmetic that can wrap is written with an explicit `% 2 ^ 64`;
* the `int` result code `rv` is an `Int`;
* the socket behind `ClientSocketHandle` is a script of replies, one per
  `Write`/`Read` call, together with the log of everything the code did to the
  socket and to its `NetLog`;
* `DCHECK`s and `NOTREACHED` compile to nothing in a release build and are left
  out.
-/

namespace net

/-- One `char` of a `std::string` or of an `IOBuffer`. -/
abbrev Byte := Fin 256

/-- Modelled from the spec: the result code `OK` (the spec's `Success`) is declared in
Chromium's `net/base/net_errors.h`, which is not among the sources; its value there is 0. -/
def OK : Int := 0

/-- Modelled from the spec: the result code `ERR_IO_PENDING` (the spec's `Pending`) is
declared in Chromium's `net/base/net_error_list.h`, which is not among the sources; its
value there is -1. -/
def ERR_IO_PENDING : Int := -1

/-- Modelled from the spec: the result code `ERR_FAILED` (the spec's `ProtocolRejected`) is
declared in Chromium's `net/base/net_error_list.h`, which is not among the sources; its
value there is -2. -/
def ERR_FAILED : Int := -2

/-- Modelled from the spec: the result code `ERR_UNEXPECTED` (the spec's `InvalidUse`) is
declared in Chromium's `net/base/net_error_list.h`, which is not among the sources; its
value there is -9. -/
def ERR_UNEXPECTED : Int := -9

/-- The constant `kSOCKSAuthUsernamePasswordResponseLen` of the source. -/
def kSOCKSAuthUsernamePasswordResponseLen : Nat := 2

/-- Number of values of a `size_t`. -/
def SIZE_MOD : Nat := 2 ^ 64

/-- Conversion of a `size_t` to a `char`, as in `buffer_[1] = usernamelen`. -/
def narrow (n : Nat) : Byte := ⟨n % 256, Nat.mod_lt n (by decide)⟩

/-- Subtraction of two `size_t` values: `a - b` wraps around modulo `2 ^ 64`. -/
def size_sub (a b : Nat) : Nat := (a + (SIZE_MOD - b % SIZE_MOD)) % SIZE_MOD

/-- The call `std::string::replace(pos, len, str)`. -/
def replace (s : List Byte) (pos len : Nat) (str : List Byte) : List Byte :=
  s.take pos ++ str ++ s.drop (pos + len)

/-- The expression `std::max(rv, 0)`. -/
def max0 (rv : Int) : Int := if rv < 0 then 0 else rv

/-- Modelled from the spec: the `enum` of the values of `next_state_` is declared in the
header `socks_auth_username_password.h`, which is not among the sources; these are the
eight states of the spec's transition table, under the names the `switch` of `Do` uses. -/
inductive StateId
  | STATE_INIT_WRITE
  | STATE_WRITE
  | STATE_WRITE_COMPLETE
  | STATE_INIT_READ
  | STATE_READ
  | STATE_READ_COMPLETE
  | STATE_DONE
  | STATE_BAD
  deriving DecidableEq, Repr

open StateId

/-- Modelled from the spec: the event kinds are declared in Chromium's
`net/log/net_log_event_type_list.h`, which is not among the sources; these are the two
kinds `Do` uses, one for the write phase and one for the read phase. -/
inductive NetLogEventType
  | SOCKS5_AUTH_WRITE
  | SOCKS5_AUTH_READ
  deriving DecidableEq, Repr

open NetLogEventType

/-- Everything `Do` does to its collaborators, in program order: the two
`NetLog` calls and the two socket calls.  `Write` records the bytes held by the
`IOBuffer` handed to the socket and the length argument; `Read` records the
length argument. -/
inductive Event
  | BeginEvent (type : NetLogEventType)
  | EndEventWithNetErrorCode (type : NetLogEventType) (net_error : Int)
  | Write (buf : List Byte) (buf_len : Nat)
  | Read (buf_len : Nat)
  deriving DecidableEq, Repr

open Event

/-- What the socket does with one `Write` or `Read` call: the `int` it returns
(a byte count, a negative net error, or `ERR_IO_PENDING`) and, for a read, the
bytes it has put into the `IOBuffer`. -/
structure Reply where
  rv : Int
  data : List Byte
  deriving DecidableEq, Repr

/-- The `ClientSocketHandle& transport` argument: the replies the socket will
give to the next calls, and the log of calls made so far.  A socket with no
scripted reply left answers `ERR_IO_PENDING`. -/
structure ClientSocketHandle where
  replies : List Reply
  log : List Event
  deriving DecidableEq, Repr

/-- The class `SOCKSAuthUsernamePassword`: the two credentials its constructor stores. -/
structure SOCKSAuthUsernamePassword where
  username_ : List Byte
  password_ : List Byte
  deriving DecidableEq, Repr

/-- Modelled from the spec: the class `SOCKSAuthUsernamePassword::State` is declared in the
header `socks_auth_username_password.h`, which is not among the sources; the members are
those the constructor and `Do` use: `buffer_` is a `std::string`, `buffer_left_` a `size_t`,
`iobuf_` the bytes of the `IOBuffer` it refers to. -/
structure State where
  auth_ : SOCKSAuthUsernamePassword
  next_state_ : StateId
  buffer_ : List Byte
  buffer_left_ : Nat
  iobuf_ : List Byte
  deriving DecidableEq, Repr

/-- The constructor `State::State(auth)` reached through
`SOCKSAuthUsernamePassword::Initialize`.  `buffer_left_` and `iobuf_` are not
set by the constructor; `STATE_INIT_WRITE` and `STATE_WRITE` overwrite them
before they are read. -/
def Initialize (auth : SOCKSAuthUsernamePassword) : State :=
  { auth_ := auth, next_state_ := STATE_INIT_WRITE, buffer_ := [],
    buffer_left_ := 0, iobuf_ := [] }

/-- The constructor `IOBuffer(n)`: `n` bytes (their content is not specified;
zero here). -/
def IOBuffer (n : Nat) : List Byte := List.replicate n 0

/-- The socket storing `data` at the start of an `IOBuffer`. -/
def store (buf data : List Byte) : List Byte :=
  (data ++ buf.drop data.length).take buf.length

/-- How one pass through the `switch` ends: `break` (the `while` condition is
tested next) or `return`. -/
inductive Flow
  | brk (rv : Int)
  | ret (rv : Int)
  deriving DecidableEq, Repr

open Flow

/-- The answer of the socket to the next call, and the replies left. -/
def nextReply (transport : ClientSocketHandle) : Reply × List Reply :=
  match transport.replies with
  | [] => (⟨ERR_IO_PENDING, []⟩, [])
  | r :: rest => (r, rest)

/-- One pass through the `switch (next_state_)` of `Do`. -/
def step (rv : Int) (s : State) (transport : ClientSocketHandle) :
    Flow × State × ClientSocketHandle :=
  match s.next_state_ with
  | STATE_INIT_WRITE =>
    let usernamelen := s.auth_.username_.length
    let passwordlen := s.auth_.password_.length
    let b0 : List Byte := List.replicate (1 + 1 + usernamelen + 1 + passwordlen) 0
    let b1 := b0.set 0 0x01
    let b2 := b1.set 1 (narrow usernamelen)
    let b3 := replace b2 2 usernamelen s.auth_.username_
    let b4 := b3.set (2 + usernamelen) (narrow passwordlen)
    let b5 := replace b4 (2 + usernamelen + 1) passwordlen s.auth_.password_
    (brk OK,
      { s with buffer_ := b5, buffer_left_ := b5.length, next_state_ := STATE_WRITE },
      transport)
  | STATE_WRITE =>
    let iobuf :=
      (s.buffer_.drop (size_sub s.buffer_.length s.buffer_left_)).take s.buffer_left_
    let reply := nextReply transport
    (brk reply.1.rv,
      { s with iobuf_ := iobuf, next_state_ := STATE_WRITE_COMPLETE },
      { replies := reply.2,
        log := transport.log ++ [BeginEvent SOCKS5_AUTH_WRITE, Write iobuf s.buffer_left_] })
  | STATE_WRITE_COMPLETE =>
    let transport1 : ClientSocketHandle :=
      { transport with
        log := transport.log ++ [EndEventWithNetErrorCode SOCKS5_AUTH_WRITE (max0 rv)] }
    if rv < 0 then
      (ret rv, { s with next_state_ := STATE_BAD }, transport1)
    else
      let left := size_sub s.buffer_left_ rv.toNat
      (brk OK,
        { s with buffer_left_ := left,
                 next_state_ := if left = 0 then STATE_INIT_READ else STATE_WRITE },
        transport1)
  | STATE_INIT_READ =>
    (brk OK,
      { s with buffer_ := [], buffer_left_ := kSOCKSAuthUsernamePasswordResponseLen,
               iobuf_ := IOBuffer kSOCKSAuthUsernamePasswordResponseLen,
               next_state_ := STATE_READ },
      transport)
  | STATE_READ =>
    let reply := nextReply transport
    (brk reply.1.rv,
      { s with iobuf_ := store (IOBuffer s.buffer_left_) reply.1.data,
               next_state_ := STATE_READ_COMPLETE },
      { replies := reply.2,
        log := transport.log ++ [BeginEvent SOCKS5_AUTH_READ, Read s.buffer_left_] })
  | STATE_READ_COMPLETE =>
    let transport1 : ClientSocketHandle :=
      { transport with
        log := transport.log ++ [EndEventWithNetErrorCode SOCKS5_AUTH_READ (max0 rv)] }
    if rv < 0 then
      (ret rv, { s with next_state_ := STATE_BAD }, transport1)
    else
      let left := size_sub s.buffer_left_ rv.toNat
      (brk OK,
        { s with buffer_ := s.buffer_ ++ s.iobuf_.take rv.toNat,
                 buffer_left_ := left,
                 next_state_ := if left = 0 then STATE_DONE else STATE_READ },
        transport1)
  | STATE_DONE =>
    let ver : Byte := s.buffer_.getD 0 0
    let status : Byte := s.buffer_.getD 1 0
    if ver ≠ 0x01 ∨ status ≠ 0x00 then
      (ret ERR_FAILED, { s with next_state_ := STATE_BAD }, transport)
    else
      (ret OK, { s with next_state_ := STATE_BAD }, transport)
  | STATE_BAD =>
    (ret ERR_UNEXPECTED, s, transport)

/-- Where a call of `Do` stands: about to run the `switch` with the current
`rv`, or returned with its result. -/
inductive Config
  | running (rv : Int) (s : State) (transport : ClientSocketHandle)
  | returned (rv : Int) (s : State) (transport : ClientSocketHandle)
  deriving DecidableEq, Repr

open Config

/-- One iteration of `do { switch ... } while (rv != ERR_IO_PENDING);`, the
final `return rv;` included. -/
def loopBody : Config → Config
  | returned rv s transport => returned rv s transport
  | running rv s transport =>
    match step rv s transport with
    | (ret r, s1, transport1) => returned r s1 transport1
    | (brk r, s1, transport1) =>
      if r ≠ ERR_IO_PENDING then running r s1 transport1 else returned r s1 transport1

/-- The configuration after `k` iterations of the loop of `Do`. -/
def DoIter (k : Nat) (c : Config) : Config := loopBody^[k] c

/-- Number of iterations after which a call has returned: every socket call
uses up a reply and at most two other cases run between two socket calls. -/
def iterations (transport : ClientSocketHandle) : Nat := 3 * transport.replies.length + 4

/-- The function `SOCKSAuthUsernamePassword::State::Do(rv, transport, callback)`:
the value returned, the object afterwards, and the socket afterwards. -/
def Do (rv : Int) (s : State) (transport : ClientSocketHandle) :
    Option (Int × State × ClientSocketHandle) :=
  match DoIter (iterations transport) (running rv s transport) with
  | returned r s1 transport1 => some (r, s1, transport1)
  | running _ _ _ => none

/-- The string "bob". -/
def bob : List Byte := [0x62, 0x6F, 0x62]

/-- The string "secret". -/
def secret : List Byte := [0x73, 0x65, 0x63, 0x72, 0x65, 0x74]

/-- The request as the comment in `STATE_INIT_WRITE` and the spec describe it:
`0x01, usernamelen, username, passwordlen, password`, each length in one byte.
`build_request` compares it with what the code builds. -/
def request (auth : SOCKSAuthUsernamePassword) : List Byte :=
  (0x01 : Byte) :: narrow auth.username_.length :: auth.username_ ++
    narrow auth.password_.length :: auth.password_

/-- A bound on the number of iterations a configuration still needs. -/
def rank : StateId → Nat
  | STATE_INIT_WRITE => 2
  | STATE_WRITE => 1
  | STATE_WRITE_COMPLETE => 3
  | STATE_INIT_READ => 2
  | STATE_READ => 1
  | STATE_READ_COMPLETE => 3
  | STATE_DONE => 1
  | STATE_BAD => 0

/-- The quantity that every iteration of the loop decreases. -/
def weight : Config → Nat
  | running _ s transport => 3 * transport.replies.length + rank s.next_state_
  | returned _ _ _ => 0

/-- A configuration in which `Do` has returned. -/
def Config.isReturned : Config → Bool
  | returned _ _ _ => true
  | running _ _ _ => false

/-- The socket (replies left and log) of a configuration. -/
def Config.transport : Config → ClientSocketHandle
  | running _ _ transport => transport
  | returned _ _ transport => transport

/-- The `State` object of a configuration. -/
def Config.state : Config → State
  | running _ s _ => s
  | returned _ s _ => s

/-- A username of 256 bytes, each the letter `a`. -/
def longName : List Byte := List.replicate 256 0x61

/-- The byte counts of a list of completions. -/
def counts (ws : List Reply) : List Nat := ws.map (fun r => r.rv.toNat)

/-- The number of bytes a list of completions accounts for. -/
def total (ws : List Reply) : Nat := (counts ws).sum

/-- Every completion of the list has a count between 0 and the number of
bytes still outstanding when it arrives (`left` at the start). -/
def inRange : Nat → List Reply → Bool
  | _, [] => true
  | left, r :: rs =>
    decide (0 ≤ r.rv) && decide (r.rv.toNat ≤ left) && inRange (left - r.rv.toNat) rs

/-- Every read completion of the list has put as many bytes into the
`IOBuffer` as it reports. -/
def dataMatches (rs : List Reply) : Bool := rs.all (fun r => decide (r.data.length = r.rv.toNat))

/-- The bytes a list of read completions has delivered, in order. -/
def delivered (rs : List Reply) : List Byte := (rs.map (fun r => r.data)).flatten

/-- The log of a write phase that starts with `left` bytes of `b` unwritten
and sees the completions `ws`. -/
def writeLog (b : List Byte) : Nat → List Reply → List Event
  | _, [] => []
  | left, r :: rs =>
    [BeginEvent SOCKS5_AUTH_WRITE, Write (b.drop (b.length - left)) left,
      EndEventWithNetErrorCode SOCKS5_AUTH_WRITE r.rv] ++ writeLog b (left - r.rv.toNat) rs

/-- The log of a read phase that starts with `left` bytes missing and sees the
completions `rs`. -/
def readLog : Nat → List Reply → List Event
  | _, [] => []
  | left, r :: rs =>
    [BeginEvent SOCKS5_AUTH_READ, Read left,
      EndEventWithNetErrorCode SOCKS5_AUTH_READ r.rv] ++ readLog (left - r.rv.toNat) rs

/-- The `Write` calls of a log: the bytes offered and the length argument. -/
def writesOf : List Event → List (List Byte × Nat)
  | [] => []
  | Write buf len :: es => (buf, len) :: writesOf es
  | _ :: es => writesOf es

/-- The `Read` calls of a log: the length argument. -/
def readsOf : List Event → List Nat
  | [] => []
  | Read len :: es => len :: readsOf es
  | _ :: es => readsOf es

/-- The result of `STATE_DONE` for the response bytes `ver`, `status`. -/
def verdict (ver status : Byte) : Int := if ver = 0x01 ∧ status = 0x00 then OK else ERR_FAILED

/-- A call that is still in its write phase: it has not returned, the object
is in one of the three write states, and no `Read` has been issued. -/
def inWritePhase (c : Config) : Prop :=
  c.isReturned = false ∧
  (c.state.next_state_ = STATE_INIT_WRITE ∨ c.state.next_state_ = STATE_WRITE ∨
    c.state.next_state_ = STATE_WRITE_COMPLETE) ∧
  readsOf c.transport.log = []

instance (c : Config) : Decidable (inWritePhase c) := by
  unfold inWritePhase
  infer_instance

/-- Twelve write completions of one byte each. -/
def oneByteWrites : List Reply := List.replicate 12 ⟨1, []⟩

/-- A configuration that has returned either returned `ERR_IO_PENDING` or
left the object in `STATE_BAD`. -/
def terminalIsBad : Config → Prop
  | returned rv s _ => rv ≠ ERR_IO_PENDING → s.next_state_ = STATE_BAD
  | running _ _ _ => True

/-- The log entries that are socket calls. -/
def Event.isSocketCall : Event → Bool
  | Write _ _ => true
  | Read _ => true
  | _ => false

/-- The invariant of a call whose log at entry was `log0`: while the loop runs
`rv` is not `ERR_IO_PENDING`, and when `ERR_IO_PENDING` has been returned the
object waits in a `..._COMPLETE` state and the last entry of the log is a
socket call made in this call. -/
def pendingOnlyAfterCall (log0 : List Event) : Config → Prop
  | running rv _ transport => rv ≠ ERR_IO_PENDING ∧ log0 <+: transport.log
  | returned rv s transport =>
    rv = ERR_IO_PENDING →
      (s.next_state_ = STATE_WRITE_COMPLETE ∨ s.next_state_ = STATE_READ_COMPLETE) ∧
      ∃ pre op, transport.log = pre ++ [op] ∧ log0 <+: pre ∧ op.isSocketCall = true

/-- The object for "bob" / "secret" while its first write is pending. -/
def writePending : State :=
  ⟨⟨bob, secret⟩, STATE_WRITE_COMPLETE, request ⟨bob, secret⟩, 12, request ⟨bob, secret⟩⟩

/-- The socket while that write is pending: nothing scripted, the write in
the log. -/
def writePendingSocket : ClientSocketHandle :=
  ⟨[], [BeginEvent SOCKS5_AUTH_WRITE, Write (request ⟨bob, secret⟩) 12]⟩

/-- The bytes the socket has taken: from the `i`-th write the first `n_i`
bytes of the buffer it was offered, in order. -/
def sent (writes : List (List Byte × Nat)) (ns : List Nat) : List Byte :=
  (List.zipWith (fun w n => w.1.take n) writes ns).flatten

/-- The number of bytes still missing when each completion of the list
arrives, starting from `left`. -/
def outstanding : Nat → List Reply → List Nat
  | _, [] => []
  | left, r :: rs => left :: outstanding (left - r.rv.toNat) rs

/-- Modelled from the spec: the socket and the caller of `Do` are not among the
sources.  A pending `Read` puts its bytes into the `IOBuffer` it was given and
then has `Do` called again with the result; a pending `Write` leaves the
`IOBuffer` alone.  This is what the socket does to the object before that
call. -/
def notify (c : Reply) (s : State) : State :=
  if s.next_state_ = STATE_READ_COMPLETE then { s with iobuf_ := store s.iobuf_ c.data } else s

/-- A call of `Do` has returned `ERR_IO_PENDING` with the object waiting for the
completion of a socket call. -/
def waiting (r : Int) (s : State) : Bool :=
  decide (r = ERR_IO_PENDING) &&
    (decide (s.next_state_ = STATE_WRITE_COMPLETE) || decide (s.next_state_ = STATE_READ_COMPLETE))

/-- The results of the socket calls of a run in the order of the calls, when
every call returns its result at once.  A run is given as segments
`(pre, c)`: the socket calls with results `pre` return at once and the next
one reports pending and later completes with `c`; after the last segment the
calls with results `tail` return at once. -/
def flat : List (List Reply × Reply) → List Reply → List Reply
  | [], tail => tail
  | (pre, c) :: segs, tail => pre ++ c :: flat segs tail

/-- Modelled from the spec: the caller of `Do` is not among the sources.  It
calls `Do`; when `Do` returns `ERR_IO_PENDING` with a socket call pending, the
completion `c` of that call is notified by calling `Do` again with its result.
The value is the list of the values returned by the successive calls of `Do`,
the object at the end, and the log at the end. -/
def drive : List (List Reply × Reply) → List Reply → Int → State → List Event →
    List Int × State × List Event
  | [], tail, rv, s, log =>
    match Do rv s ⟨tail, log⟩ with
    | some (r, s1, t1) => ([r], s1, t1.log)
    | none => ([], s, log)
  | (pre, c) :: segs, tail, rv, s, log =>
    match Do rv s ⟨pre, log⟩ with
    | some (r, s1, t1) =>
      if waiting r s1 then
        let next := drive segs tail c.rv (notify c s1) t1.log
        (r :: next.1, next.2.1, next.2.2)
      else ([r], s1, t1.log)
    | none => ([], s, log)

/-- The first `n` completions of a socket that each transfer 0 bytes. -/
def zeros (n : Nat) : List Reply := List.replicate n ⟨0, []⟩

/-- The completion a configuration is about to process in
`STATE_WRITE_COMPLETE` or `STATE_READ_COMPLETE` is a negative result, or a
count of at least 1 byte and at most `buffer_left_`, the bound that the
`DCHECK_LE` of these two states asserts. -/
def makesProgress : Config → Bool
  | running rv s _ =>
    if s.next_state_ = STATE_WRITE_COMPLETE ∨ s.next_state_ = STATE_READ_COMPLETE then
      decide (rv < 0) || (decide (1 ≤ rv) && decide (rv.toNat ≤ s.buffer_left_))
    else true
  | returned _ _ _ => true

/-- The invariant behind the bound on the number of socket calls of an
exchange whose request has `len` bytes: the writes issued so far and the bytes
still unwritten fit in `len`, the reads issued so far and the bytes still
missing fit in 2. -/
def withinBounds (len : Nat) : Config → Prop
  | returned _ _ transport =>
    (writesOf transport.log).length ≤ len ∧ (readsOf transport.log).length ≤ 2
  | running _ s transport =>
    match s.next_state_ with
    | STATE_INIT_WRITE =>
      (request s.auth_).length = len ∧ writesOf transport.log = [] ∧ readsOf transport.log = []
    | STATE_WRITE =>
      (writesOf transport.log).length + s.buffer_left_ ≤ len ∧ 1 ≤ s.buffer_left_ ∧
        readsOf transport.log = []
    | STATE_WRITE_COMPLETE =>
      (writesOf transport.log).length + s.buffer_left_ ≤ len + 1 ∧ 1 ≤ s.buffer_left_ ∧
        s.buffer_left_ ≤ len ∧ readsOf transport.log = []
    | STATE_INIT_READ =>
      (writesOf transport.log).length ≤ len ∧ readsOf transport.log = []
    | STATE_READ =>
      (writesOf transport.log).length ≤ len ∧
        (readsOf transport.log).length + s.buffer_left_ ≤ 2 ∧ 1 ≤ s.buffer_left_
    | STATE_READ_COMPLETE =>
      (writesOf transport.log).length ≤ len ∧
        (readsOf transport.log).length + s.buffer_left_ ≤ 3 ∧ 1 ≤ s.buffer_left_
    | STATE_DONE =>
      (writesOf transport.log).length ≤ len ∧ (readsOf transport.log).length ≤ 2
    | STATE_BAD =>
      (writesOf transport.log).length ≤ len ∧ (readsOf transport.log).length ≤ 2

/-! ## The request built in `STATE_INIT_WRITE` -/

theorem replicate_layout (n m : Nat) :
    List.replicate (1 + 1 + n + 1 + m) (0 : Byte)
      = 0 :: 0 :: (List.replicate n 0 ++ 0 :: List.replicate m 0) := by
  have h : 1 + 1 + n + 1 + m = (n + (m + 1)) + 1 + 1 := by omega
  rw [h, List.replicate_succ, List.replicate_succ, List.replicate_add, List.replicate_succ]

/-- The five `std::string` operations of `STATE_INIT_WRITE` produce
`0x01, usernamelen, username, passwordlen, password`. -/
theorem build_request (u p : List Byte) :
    replace
      (((replace ((((List.replicate (1 + 1 + u.length + 1 + p.length) (0 : Byte)).set 0 0x01).set 1
          (narrow u.length))) 2 u.length u).set (2 + u.length) (narrow p.length)))
      (2 + u.length + 1) p.length p
      = request ⟨u, p⟩ := by
  rw [replicate_layout]
  simp only [List.set_cons_zero, List.set_cons_succ, replace, request]
  have e1 : 2 + u.length = u.length + 1 + 1 := by omega
  have e2 : 2 + u.length + 1 = (u.length + 1) + 1 + 1 := by omega
  have e3 : 2 + u.length + 1 + p.length = (u.length + (p.length + 1)) + 1 + 1 := by omega
  simp [e1, e2, e3, List.take_succ_cons, List.drop_succ_cons, List.take_append_eq_append_take,
    List.drop_append_eq_append_drop, List.set_append]
  rw [List.take_of_length_le (by omega), List.drop_eq_nil_of_le (by simp; omega)]
  simp

theorem request_length (auth : SOCKSAuthUsernamePassword) :
    (request auth).length = 2 + auth.username_.length + 1 + auth.password_.length := by
  simp [request]; omega

theorem narrow_val (n : Nat) (h : n ≤ 255) : (narrow n).val = n := by
  simp [narrow]; omega

theorem step_init_write (rv : Int) (s : State) (t : ClientSocketHandle)
    (h : s.next_state_ = STATE_INIT_WRITE) :
    step rv s t = (brk OK,
      { s with buffer_ := request s.auth_, buffer_left_ := (request s.auth_).length,
               next_state_ := STATE_WRITE }, t) := by
  unfold step
  rw [h]
  simp only
  rw [build_request]

/-- C1: for credentials whose lengths are both at most 255, the pass through
`STATE_INIT_WRITE` leaves in `buffer_` exactly the bytes
`[0x01, ulen] ++ username ++ [plen] ++ password`, of length
`2 + ulen + 1 + plen`, sets `buffer_left_` to that length and goes on to
`STATE_WRITE`; for "bob" and "secret" these are the twelve bytes
`01 03 62 6F 62 06 73 65 63 72 65 74`. -/
theorem C1_init_write_request :
    (∀ (u p : List Byte) (rv : Int) (t : ClientSocketHandle),
      u.length ≤ 255 → p.length ≤ 255 →
      ∃ s1, step rv (Initialize ⟨u, p⟩) t = (brk OK, s1, t) ∧
        s1.next_state_ = STATE_WRITE ∧
        s1.buffer_.length = 2 + u.length + 1 + p.length ∧
        s1.buffer_.map Fin.val
          = [0x01, u.length] ++ u.map Fin.val ++ [p.length] ++ p.map Fin.val ∧
        s1.buffer_left_ = 2 + u.length + 1 + p.length) ∧
    (∀ (rv : Int) (t : ClientSocketHandle),
      ∃ s1, step rv (Initialize ⟨bob, secret⟩) t = (brk OK, s1, t) ∧
        s1.buffer_ = [0x01, 0x03, 0x62, 0x6F, 0x62, 0x06, 0x73, 0x65, 0x63, 0x72, 0x65, 0x74] ∧
        s1.buffer_left_ = 12) := by
  refine ⟨?_, ?_⟩
  · intro u p rv t hu hp
    refine ⟨_, step_init_write rv _ t rfl, rfl, ?_, ?_, ?_⟩
    · exact request_length ⟨u, p⟩
    · simp [request, Initialize, narrow_val _ hu, narrow_val _ hp]
    · exact request_length ⟨u, p⟩
  · intro rv t
    exact ⟨_, step_init_write rv _ t rfl, by decide, by decide⟩

/-- C1 at the credentials "bob" / "secret". -/
theorem C1_init_write_request_witness :
    ∃ s1, step OK (Initialize ⟨bob, secret⟩) ⟨[], []⟩ = (brk OK, s1, ⟨[], []⟩) ∧
      s1.next_state_ = STATE_WRITE ∧
      s1.buffer_.length = 2 + bob.length + 1 + secret.length ∧
      s1.buffer_.map Fin.val
        = [0x01, bob.length] ++ bob.map Fin.val ++ [secret.length] ++ secret.map Fin.val ∧
      s1.buffer_left_ = 2 + bob.length + 1 + secret.length :=
  C1_init_write_request.1 bob secret OK ⟨[], []⟩ (by decide) (by decide)

/-! ## The loop -/

theorem DoIter_zero (c : Config) : DoIter 0 c = c := rfl

theorem DoIter_succ (k : Nat) (c : Config) : DoIter (k + 1) c = DoIter k (loopBody c) := rfl

theorem DoIter_succ_last (k : Nat) (c : Config) : DoIter (k + 1) c = loopBody (DoIter k c) := by
  unfold DoIter
  exact Function.iterate_succ_apply' loopBody k c

theorem DoIter_add (j k : Nat) (c : Config) : DoIter (j + k) c = DoIter k (DoIter j c) := by
  unfold DoIter
  rw [Nat.add_comm, Function.iterate_add_apply]

theorem DoIter_returned (k : Nat) (rv : Int) (s : State) (t : ClientSocketHandle) :
    DoIter k (returned rv s t) = returned rv s t := by
  induction k with
  | zero => rfl
  | succ k ih => rw [DoIter_succ]; exact ih

theorem DoIter_returned_le {j k : Nat} {c : Config} {rv : Int} {s : State}
    {t : ClientSocketHandle} (h : DoIter j c = returned rv s t) (hjk : j ≤ k) :
    DoIter k c = returned rv s t := by
  obtain ⟨d, rfl⟩ := Nat.exists_eq_add_of_le hjk
  rw [DoIter_add, h, DoIter_returned]

/-- Every iteration returns or makes the weight smaller. -/
theorem loopBody_weight (c : Config) :
    (loopBody c).isReturned = true ∨ weight (loopBody c) < weight c := by
  cases c with
  | returned rv s t => left; rfl
  | running rv s t =>
    obtain ⟨auth, st, buf, left, io⟩ := s
    obtain ⟨replies, log⟩ := t
    cases st <;> simp only [loopBody, step]
    · right; simp [weight, rank, OK, ERR_IO_PENDING]
    · cases replies with
      | nil => left; simp [nextReply, Config.isReturned]
      | cons r rest =>
        by_cases hr : r.rv = ERR_IO_PENDING
        · left; simp [nextReply, hr, Config.isReturned]
        · right; simp [nextReply, hr, weight, rank]; omega
    · by_cases hrv : rv < 0
      · left; simp [hrv, Config.isReturned]
      · right
        by_cases hl : size_sub left rv.toNat = 0 <;>
          simp [hrv, hl, weight, rank, OK, ERR_IO_PENDING]
    · right; simp [weight, rank, OK, ERR_IO_PENDING]
    · cases replies with
      | nil => left; simp [nextReply, Config.isReturned]
      | cons r rest =>
        by_cases hr : r.rv = ERR_IO_PENDING
        · left; simp [nextReply, hr, Config.isReturned]
        · right; simp [nextReply, hr, weight, rank]; omega
    · by_cases hrv : rv < 0
      · left; simp [hrv, Config.isReturned]
      · right
        by_cases hl : size_sub left rv.toNat = 0 <;>
          simp [hrv, hl, weight, rank, OK, ERR_IO_PENDING]
    · left
      by_cases hv : buf.getD 0 0 ≠ 1 ∨ buf.getD 1 0 ≠ 0
      · rw [if_pos hv]; rfl
      · rw [if_neg hv]; rfl
    · left; simp [Config.isReturned]

theorem DoIter_weight (k : Nat) (c : Config) :
    (DoIter k c).isReturned = true ∨ weight (DoIter k c) + k ≤ weight c := by
  induction k with
  | zero => right; simp [DoIter_zero]
  | succ k ih =>
    rw [DoIter_succ_last]
    rcases ih with h | h
    · left
      cases hc : DoIter k c with
      | returned rv s t => rfl
      | running rv s t => rw [hc] at h; simp [Config.isReturned] at h
    · rcases loopBody_weight (DoIter k c) with h1 | h1
      · left; exact h1
      · right; omega

/-- The loop of `Do` ends: `Do` returns a result on every input. -/
theorem Do_total (rv : Int) (s : State) (t : ClientSocketHandle) :
    ∃ r s1 t1, DoIter (iterations t) (running rv s t) = returned r s1 t1 ∧
      Do rv s t = some (r, s1, t1) := by
  rcases DoIter_weight (iterations t) (running rv s t) with h | h
  · cases hc : DoIter (iterations t) (running rv s t) with
    | returned r s1 t1 => exact ⟨r, s1, t1, rfl, by simp [Do, hc]⟩
    | running r s1 t1 => rw [hc] at h; simp [Config.isReturned] at h
  · exfalso
    have hr : rank s.next_state_ ≤ 3 := by cases s.next_state_ <;> simp [rank]
    simp only [weight, iterations] at h
    omega

/-- A configuration reached after any number of iterations in which `Do` has
returned is the result of `Do`. -/
theorem Do_of_DoIter {k : Nat} {rv r : Int} {s s1 : State} {t t1 : ClientSocketHandle}
    (h : DoIter k (running rv s t) = returned r s1 t1) : Do rv s t = some (r, s1, t1) := by
  obtain ⟨r2, s2, t2, h2, hDo⟩ := Do_total rv s t
  rcases Nat.le_total k (iterations t) with hk | hk
  · rw [DoIter_returned_le h hk] at h2
    cases h2
    exact hDo
  · rw [DoIter_returned_le h2 hk] at h
    cases h
    exact hDo

/-! ## One iteration from each state -/

theorem loopBody_init_write (rv : Int) (s : State) (t : ClientSocketHandle)
    (h : s.next_state_ = STATE_INIT_WRITE) :
    loopBody (running rv s t) = running OK
      { s with buffer_ := request s.auth_, buffer_left_ := (request s.auth_).length,
               next_state_ := STATE_WRITE } t := by
  simp [loopBody, step_init_write rv s t h, OK, ERR_IO_PENDING]

/-- The bytes `STATE_WRITE` copies into the `IOBuffer`. -/
theorem step_write (rv : Int) (s : State) (t : ClientSocketHandle)
    (h : s.next_state_ = STATE_WRITE) :
    step rv s t = (brk (nextReply t).1.rv,
      { s with iobuf_ :=
                 (s.buffer_.drop (size_sub s.buffer_.length s.buffer_left_)).take s.buffer_left_,
               next_state_ := STATE_WRITE_COMPLETE },
      { replies := (nextReply t).2,
        log := t.log ++ [BeginEvent SOCKS5_AUTH_WRITE,
          Write ((s.buffer_.drop (size_sub s.buffer_.length s.buffer_left_)).take s.buffer_left_)
            s.buffer_left_] }) := by
  unfold step
  rw [h]

theorem step_read (rv : Int) (s : State) (t : ClientSocketHandle)
    (h : s.next_state_ = STATE_READ) :
    step rv s t = (brk (nextReply t).1.rv,
      { s with iobuf_ := store (IOBuffer s.buffer_left_) (nextReply t).1.data,
               next_state_ := STATE_READ_COMPLETE },
      { replies := (nextReply t).2,
        log := t.log ++ [BeginEvent SOCKS5_AUTH_READ, Read s.buffer_left_] }) := by
  unfold step
  rw [h]

theorem step_write_complete_neg (rv : Int) (s : State) (t : ClientSocketHandle)
    (h : s.next_state_ = STATE_WRITE_COMPLETE) (hrv : rv < 0) :
    step rv s t = (ret rv, { s with next_state_ := STATE_BAD },
      { t with log := t.log ++ [EndEventWithNetErrorCode SOCKS5_AUTH_WRITE (max0 rv)] }) := by
  unfold step
  rw [h]
  simp [hrv]

theorem step_write_complete (rv : Int) (s : State) (t : ClientSocketHandle)
    (h : s.next_state_ = STATE_WRITE_COMPLETE) (hrv : 0 ≤ rv) :
    step rv s t = (brk OK,
      { s with buffer_left_ := size_sub s.buffer_left_ rv.toNat,
               next_state_ := if size_sub s.buffer_left_ rv.toNat = 0 then STATE_INIT_READ
                              else STATE_WRITE },
      { t with log := t.log ++ [EndEventWithNetErrorCode SOCKS5_AUTH_WRITE (max0 rv)] }) := by
  unfold step
  rw [h]
  simp [Int.not_lt.mpr hrv]

theorem step_init_read (rv : Int) (s : State) (t : ClientSocketHandle)
    (h : s.next_state_ = STATE_INIT_READ) :
    step rv s t = (brk OK,
      { s with buffer_ := [], buffer_left_ := kSOCKSAuthUsernamePasswordResponseLen,
               iobuf_ := IOBuffer kSOCKSAuthUsernamePasswordResponseLen,
               next_state_ := STATE_READ }, t) := by
  unfold step
  rw [h]

theorem step_read_complete_neg (rv : Int) (s : State) (t : ClientSocketHandle)
    (h : s.next_state_ = STATE_READ_COMPLETE) (hrv : rv < 0) :
    step rv s t = (ret rv, { s with next_state_ := STATE_BAD },
      { t with log := t.log ++ [EndEventWithNetErrorCode SOCKS5_AUTH_READ (max0 rv)] }) := by
  unfold step
  rw [h]
  simp [hrv]

theorem step_read_complete (rv : Int) (s : State) (t : ClientSocketHandle)
    (h : s.next_state_ = STATE_READ_COMPLETE) (hrv : 0 ≤ rv) :
    step rv s t = (brk OK,
      { s with buffer_ := s.buffer_ ++ s.iobuf_.take rv.toNat,
               buffer_left_ := size_sub s.buffer_left_ rv.toNat,
               next_state_ := if size_sub s.buffer_left_ rv.toNat = 0 then STATE_DONE
                              else STATE_READ },
      { t with log := t.log ++ [EndEventWithNetErrorCode SOCKS5_AUTH_READ (max0 rv)] }) := by
  unfold step
  rw [h]
  simp [Int.not_lt.mpr hrv]

theorem step_done (rv : Int) (s : State) (t : ClientSocketHandle)
    (h : s.next_state_ = STATE_DONE) :
    step rv s t =
      (ret (if s.buffer_.getD 0 0 = 0x01 ∧ s.buffer_.getD 1 0 = 0x00 then OK else ERR_FAILED),
        { s with next_state_ := STATE_BAD }, t) := by
  unfold step
  rw [h]
  simp only []
  split_ifs with a b b
  · exact absurd b (by tauto)
  · rfl
  · rfl
  · exact absurd (not_or.mp a) (by tauto)

theorem step_bad (rv : Int) (s : State) (t : ClientSocketHandle)
    (h : s.next_state_ = STATE_BAD) :
    step rv s t = (ret ERR_UNEXPECTED, s, t) := by
  unfold step
  rw [h]

theorem OK_ne_pending : OK ≠ ERR_IO_PENDING := by decide

theorem loopBody_brk {rv r : Int} {s s1 : State} {t t1 : ClientSocketHandle}
    (h : step rv s t = (brk r, s1, t1)) (hr : r ≠ ERR_IO_PENDING) :
    loopBody (running rv s t) = running r s1 t1 := by
  simp [loopBody, h, hr]

theorem loopBody_pending {rv : Int} {s s1 : State} {t t1 : ClientSocketHandle}
    (h : step rv s t = (brk ERR_IO_PENDING, s1, t1)) :
    loopBody (running rv s t) = returned ERR_IO_PENDING s1 t1 := by
  simp [loopBody, h]

theorem loopBody_ret {rv r : Int} {s s1 : State} {t t1 : ClientSocketHandle}
    (h : step rv s t = (ret r, s1, t1)) :
    loopBody (running rv s t) = returned r s1 t1 := by
  simp [loopBody, h]

/-! ## The log only grows -/

theorem step_log_grows (rv : Int) (s : State) (t : ClientSocketHandle) :
    t.log <+: (step rv s t).2.2.log := by
  obtain ⟨auth, st, buf, left, io⟩ := s
  cases st <;> simp only [step]
  · exact List.prefix_refl _
  · exact List.prefix_append _ _
  · split <;> exact List.prefix_append _ _
  · exact List.prefix_refl _
  · exact List.prefix_append _ _
  · split <;> exact List.prefix_append _ _
  · split <;> exact List.prefix_refl _
  · exact List.prefix_refl _

theorem loopBody_log_grows (c : Config) : c.transport.log <+: (loopBody c).transport.log := by
  cases c with
  | returned rv s t => exact List.prefix_refl _
  | running rv s t =>
    have h := step_log_grows rv s t
    simp only [loopBody]
    rcases hs : step rv s t with ⟨f, s1, t1⟩
    rw [hs] at h
    cases f with
    | ret r => exact h
    | brk r =>
      by_cases hr : r = ERR_IO_PENDING
      · simpa [hr, Config.transport] using h
      · simpa [hr, Config.transport] using h

theorem DoIter_log_grows (k : Nat) (c : Config) :
    c.transport.log <+: (DoIter k c).transport.log := by
  induction k with
  | zero => exact List.prefix_refl _
  | succ k ih =>
    rw [DoIter_succ_last]
    exact ih.trans (loopBody_log_grows _)

/-! ## `size_t` arithmetic without wrap-around -/

theorem size_sub_of_le {a b : Nat} (hb : b ≤ a) (ha : a < SIZE_MOD) : size_sub a b = a - b := by
  unfold size_sub
  have hb2 : b % SIZE_MOD = b := Nat.mod_eq_of_lt (by omega)
  rw [hb2]
  have h1 : a + (SIZE_MOD - b) = (a - b) + SIZE_MOD := by omega
  rw [h1, Nat.add_mod_right]
  exact Nat.mod_eq_of_lt (by omega)

/-- The bytes offered by `STATE_WRITE` are the last `buffer_left_` bytes of `buffer_`. -/
theorem offered_tail (b : List Byte) (left : Nat) (hl : left ≤ b.length)
    (hb : b.length < SIZE_MOD) :
    (b.drop (size_sub b.length left)).take left = b.drop (b.length - left) := by
  rw [size_sub_of_le hl hb]
  apply List.take_of_length_le
  rw [List.length_drop]
  omega

/-! ## The first write -/

theorem Initialize_auth (auth : SOCKSAuthUsernamePassword) : (Initialize auth).auth_ = auth := rfl

theorem loopBody_write_transport (rv : Int) (s : State) (t : ClientSocketHandle)
    (h : s.next_state_ = STATE_WRITE) :
    (loopBody (running rv s t)).transport =
      { replies := (nextReply t).2,
        log := t.log ++ [BeginEvent SOCKS5_AUTH_WRITE,
          Write ((s.buffer_.drop (size_sub s.buffer_.length s.buffer_left_)).take s.buffer_left_)
            s.buffer_left_] } := by
  simp only [loopBody, step_write rv s t h]
  split_ifs <;> rfl

/-- A fresh object first builds the request and offers all of it to the socket. -/
theorem first_write_log (auth : SOCKSAuthUsernamePassword) (rv : Int) (t : ClientSocketHandle)
    (hlen : (request auth).length < SIZE_MOD) :
    (DoIter 2 (running rv (Initialize auth) t)).transport.log =
      t.log ++ [BeginEvent SOCKS5_AUTH_WRITE, Write (request auth) (request auth).length] := by
  rw [DoIter_succ, DoIter_succ, DoIter_zero, loopBody_init_write rv _ t rfl,
    loopBody_write_transport _ _ _ rfl]
  simp only [Initialize_auth]
  rw [offered_tail _ _ (Nat.le_refl _) hlen]
  simp

theorem Do_first_write (auth : SOCKSAuthUsernamePassword) (t : ClientSocketHandle)
    (hlen : (request auth).length < SIZE_MOD) :
    ∃ r s1 t1, Do OK (Initialize auth) t = some (r, s1, t1) ∧
      t.log ++ [BeginEvent SOCKS5_AUTH_WRITE, Write (request auth) (request auth).length]
        <+: t1.log := by
  obtain ⟨r, s1, t1, hk, hDo⟩ := Do_total OK (Initialize auth) t
  refine ⟨r, s1, t1, hDo, ?_⟩
  have h2 : 2 ≤ iterations t := by unfold iterations; omega
  obtain ⟨d, hd⟩ := Nat.exists_eq_add_of_le h2
  have hp := DoIter_log_grows d (DoIter 2 (running OK (Initialize auth) t))
  rw [← DoIter_add, ← hd, hk, first_write_log auth OK t hlen] at hp
  exact hp

/-- With nothing scripted the first write stays pending and `Do` returns
`ERR_IO_PENDING` right after issuing it. -/
theorem Do_first_write_pending (auth : SOCKSAuthUsernamePassword)
    (hlen : (request auth).length < SIZE_MOD) :
    Do OK (Initialize auth) ⟨[], []⟩ = some (ERR_IO_PENDING,
      { auth_ := auth, next_state_ := STATE_WRITE_COMPLETE, buffer_ := request auth,
        buffer_left_ := (request auth).length, iobuf_ := request auth },
      ⟨[], [BeginEvent SOCKS5_AUTH_WRITE, Write (request auth) (request auth).length]⟩) := by
  apply Do_of_DoIter (k := 2)
  rw [DoIter_succ, DoIter_succ, DoIter_zero, loopBody_init_write OK _ _ rfl, loopBody_pending]
  rw [step_write _ _ _ rfl]
  simp only [nextReply, Initialize_auth]
  rw [offered_tail _ _ (Nat.le_refl _) hlen]
  simp

theorem longName_length : longName.length = 256 := by
  unfold longName
  exact List.length_replicate _ _

/-- C2 (as amended): the code has no length check and no `TooLong` result.
For every username and password, also when a length exceeds 255, `Do` builds
the request with each length byte equal to the length modulo 256 and issues
the `Write` of the whole buffer of `3 + ulen + plen` bytes. -/
theorem C2_long_credentials_are_narrowed (u p : List Byte) (t : ClientSocketHandle)
    (_hlong : 255 < u.length ∨ 255 < p.length) (hsize : 3 + u.length + p.length < SIZE_MOD) :
    ∃ r s1 t1, Do OK (Initialize ⟨u, p⟩) t = some (r, s1, t1) ∧
      t.log ++ [BeginEvent SOCKS5_AUTH_WRITE, Write (request ⟨u, p⟩) (3 + u.length + p.length)]
        <+: t1.log ∧
      (request ⟨u, p⟩).map Fin.val
        = [0x01, u.length % 256] ++ u.map Fin.val ++ [p.length % 256] ++ p.map Fin.val := by
  have hl : (request ⟨u, p⟩).length = 3 + u.length + p.length := by
    rw [request_length]; simp only []; omega
  obtain ⟨r, s1, t1, hDo, hp⟩ := Do_first_write ⟨u, p⟩ t (by rw [hl]; exact hsize)
  rw [hl] at hp
  exact ⟨r, s1, t1, hDo, hp, by simp [request, narrow]⟩

/-- C2 (as amended) at a username of 256 bytes and an empty password. -/
theorem C2_long_credentials_are_narrowed_witness :
    ∃ r s1 t1, Do OK (Initialize ⟨longName, []⟩) ⟨[], []⟩ = some (r, s1, t1) ∧
      ([] : List Event) ++ [BeginEvent SOCKS5_AUTH_WRITE,
          Write (request ⟨longName, []⟩) (3 + longName.length + ([] : List Byte).length)]
        <+: t1.log ∧
      (request ⟨longName, []⟩).map Fin.val
        = [0x01, longName.length % 256] ++ longName.map Fin.val
            ++ [([] : List Byte).length % 256] ++ ([] : List Byte).map Fin.val :=
  C2_long_credentials_are_narrowed longName [] ⟨[], []⟩
    (Or.inl (by rw [longName_length]; decide))
    (by rw [longName_length]; decide)

/-- C2 (counterexample): with a username of 256 bytes the request is not
refused: `Do` issues a `Write` of 259 bytes whose length byte is `0x00`, and
returns `ERR_IO_PENDING` as that write is pending. -/
theorem C2_counterexample :
    ∃ s1, Do OK (Initialize ⟨longName, []⟩) ⟨[], []⟩ =
      some (ERR_IO_PENDING, s1,
        ⟨[], [BeginEvent SOCKS5_AUTH_WRITE,
              Write ((0x01 : Byte) :: 0x00 :: (longName ++ [0x00])) 259]⟩) := by
  have hl : (request ⟨longName, []⟩).length = 259 := by
    rw [request_length]; simp only [longName_length]; rfl
  have hreq : request ⟨longName, []⟩ = (0x01 : Byte) :: 0x00 :: (longName ++ [0x00]) := by
    simp only [request, longName_length]
    rfl
  have h := Do_first_write_pending ⟨longName, []⟩ (by rw [hl]; decide)
  rw [hl, hreq] at h
  exact ⟨_, h⟩

/-! ## The write phase -/

theorem total_nil : total [] = 0 := rfl

theorem total_cons (r : Reply) (rs : List Reply) : total (r :: rs) = r.rv.toNat + total rs := by
  simp [total, counts]

theorem total_append (ws rs : List Reply) : total (ws ++ rs) = total ws + total rs := by
  simp [total, counts]

theorem max0_of_nonneg {rv : Int} (h : 0 ≤ rv) : max0 rv = rv := by
  simp [max0, Int.not_lt.mpr h]

theorem ne_pending_of_nonneg {rv : Int} (h : 0 ≤ rv) : rv ≠ ERR_IO_PENDING := by
  unfold ERR_IO_PENDING
  omega

theorem inRange_cons {left : Nat} {r : Reply} {rs : List Reply} (h : inRange left (r :: rs) = true) :
    0 ≤ r.rv ∧ r.rv.toNat ≤ left ∧ inRange (left - r.rv.toNat) rs = true := by
  simpa [inRange, and_assoc] using h

theorem inRange_append {left : Nat} {ws rs : List Reply} (h : inRange left (ws ++ rs) = true) :
    inRange left ws = true := by
  induction ws generalizing left with
  | nil => rfl
  | cons r ws ih =>
    obtain ⟨h0, h1, h2⟩ := inRange_cons h
    simp [inRange, h0, h1, ih h2]

/-- Two iterations, `STATE_WRITE` and `STATE_WRITE_COMPLETE`, for a write that
completes at once with a count `r.rv` that is in range. -/
theorem write_round (auth : SOCKSAuthUsernamePassword) (b io : List Byte) (left : Nat) (rv : Int)
    (r : Reply) (rest : List Reply) (log : List Event)
    (hl : left ≤ b.length) (hb : b.length < SIZE_MOD) (h0 : 0 ≤ r.rv) (h1 : r.rv.toNat ≤ left) :
    DoIter 2 (running rv ⟨auth, STATE_WRITE, b, left, io⟩ ⟨r :: rest, log⟩) =
      running OK
        ⟨auth, if left - r.rv.toNat = 0 then STATE_INIT_READ else STATE_WRITE, b,
          left - r.rv.toNat, b.drop (b.length - left)⟩
        ⟨rest, log ++ [BeginEvent SOCKS5_AUTH_WRITE, Write (b.drop (b.length - left)) left,
          EndEventWithNetErrorCode SOCKS5_AUTH_WRITE r.rv]⟩ := by
  rw [DoIter_succ, DoIter_succ, DoIter_zero]
  rw [loopBody_brk (step_write _ _ _ rfl) (by simpa [nextReply] using ne_pending_of_nonneg h0)]
  rw [loopBody_brk (step_write_complete _ _ _ rfl (by simpa [nextReply] using h0)) OK_ne_pending]
  simp only [nextReply, offered_tail b left hl hb, size_sub_of_le h1 (Nat.lt_of_le_of_lt hl hb),
    max0_of_nonneg h0, List.append_assoc, List.cons_append, List.nil_append]

/-- The write phase while the completions do not yet account for all bytes:
after two iterations per completion the object is in `STATE_WRITE` again with
the counts subtracted. -/
theorem write_phase_partial (auth : SOCKSAuthUsernamePassword) (b : List Byte)
    (rest : List Reply) (ws : List Reply) :
    ∀ (left : Nat) (io : List Byte) (rv : Int) (log : List Event),
      left ≤ b.length → b.length < SIZE_MOD → inRange left ws = true → total ws < left →
      ∃ rv1 io1, DoIter (2 * ws.length) (running rv ⟨auth, STATE_WRITE, b, left, io⟩
          ⟨ws ++ rest, log⟩) =
        running rv1 ⟨auth, STATE_WRITE, b, left - total ws, io1⟩
          ⟨rest, log ++ writeLog b left ws⟩ := by
  induction ws with
  | nil =>
    intro left io rv log _ _ _ _
    exact ⟨rv, io, by simp [DoIter_zero, total_nil, writeLog]⟩
  | cons r ws ih =>
    intro left io rv log hl hb hr ht
    obtain ⟨h0, h1, h2⟩ := inRange_cons hr
    rw [total_cons] at ht
    have hk : 2 * (r :: ws).length = 2 + 2 * ws.length := by simp; omega
    rw [hk, DoIter_add, List.cons_append, write_round auth b io left rv r _ log hl hb h0 h1]
    have hne : ¬ (left - r.rv.toNat = 0) := by omega
    rw [if_neg hne]
    obtain ⟨rv1, io1, h⟩ := ih (left - r.rv.toNat) (b.drop (b.length - left)) OK
      (log ++ [BeginEvent SOCKS5_AUTH_WRITE, Write (b.drop (b.length - left)) left,
          EndEventWithNetErrorCode SOCKS5_AUTH_WRITE r.rv]) (by omega) hb h2 (by omega)
    refine ⟨rv1, io1, ?_⟩
    rw [h, total_cons]
    simp only [writeLog, List.append_assoc, Nat.sub_sub]

theorem writeLog_append (b : List Byte) (ws rs : List Reply) :
    ∀ left, writeLog b left (ws ++ rs) = writeLog b left ws ++ writeLog b (left - total ws) rs := by
  induction ws with
  | nil => intro left; simp [writeLog, total_nil]
  | cons r ws ih =>
    intro left
    rw [List.cons_append]
    simp only [writeLog]
    rw [ih, total_cons, Nat.sub_sub]
    simp

/-- The write phase up to and including the completion that accounts for the
last byte: the object is then in `STATE_INIT_READ`. -/
theorem write_phase_complete (auth : SOCKSAuthUsernamePassword) (b : List Byte)
    (rest : List Reply) (ws : List Reply) (r : Reply) (left : Nat) (io : List Byte) (rv : Int)
    (log : List Event) (hl : left ≤ b.length) (hb : b.length < SIZE_MOD)
    (hr : inRange left (ws ++ [r]) = true) (ht : total ws < left)
    (hsum : total (ws ++ [r]) = left) :
    ∃ io1, DoIter (2 * ws.length + 2) (running rv ⟨auth, STATE_WRITE, b, left, io⟩
        ⟨ws ++ r :: rest, log⟩) =
      running OK ⟨auth, STATE_INIT_READ, b, 0, io1⟩
        ⟨rest, log ++ writeLog b left (ws ++ [r])⟩ := by
  obtain ⟨rv1, io1, h⟩ := write_phase_partial auth b (r :: rest) ws left io rv log hl hb
    (inRange_append hr) ht
  rw [total_append, total_cons, total_nil] at hsum
  have h0 : 0 ≤ r.rv := by
    by_contra hneg
    have : r.rv.toNat = 0 := Int.toNat_eq_zero.mpr (by omega)
    omega
  rw [DoIter_add, h, write_round auth b io1 (left - total ws) rv1 r rest _ (by omega) hb h0
    (by omega)]
  have hz : left - total ws - r.rv.toNat = 0 := by omega
  refine ⟨b.drop (b.length - (left - total ws)), ?_⟩
  rw [hz, if_pos rfl, writeLog_append]
  simp only [writeLog, List.append_nil, List.append_assoc]

/-! ## The read phase -/

theorem store_take (left : Nat) (data : List Byte) (hd : data.length ≤ left) :
    (store (IOBuffer left) data).take data.length = data := by
  unfold store IOBuffer
  rw [List.take_take, List.length_replicate, Nat.min_eq_left hd, List.take_left]

/-- Two iterations, `STATE_READ` and `STATE_READ_COMPLETE`, for a read that
completes at once with `r.rv` bytes. -/
theorem read_round (auth : SOCKSAuthUsernamePassword) (acc io : List Byte) (left : Nat) (rv : Int)
    (r : Reply) (rest : List Reply) (log : List Event)
    (hb : left < SIZE_MOD) (h0 : 0 ≤ r.rv) (h1 : r.rv.toNat ≤ left)
    (hd : r.data.length = r.rv.toNat) :
    DoIter 2 (running rv ⟨auth, STATE_READ, acc, left, io⟩ ⟨r :: rest, log⟩) =
      running OK
        ⟨auth, if left - r.rv.toNat = 0 then STATE_DONE else STATE_READ, acc ++ r.data,
          left - r.rv.toNat, store (IOBuffer left) r.data⟩
        ⟨rest, log ++ [BeginEvent SOCKS5_AUTH_READ, Read left,
          EndEventWithNetErrorCode SOCKS5_AUTH_READ r.rv]⟩ := by
  rw [DoIter_succ, DoIter_succ, DoIter_zero]
  rw [loopBody_brk (step_read _ _ _ rfl) (by simpa [nextReply] using ne_pending_of_nonneg h0)]
  rw [loopBody_brk (step_read_complete _ _ _ rfl (by simpa [nextReply] using h0)) OK_ne_pending]
  have ht : (store (IOBuffer left) r.data).take r.rv.toNat = r.data := by
    rw [← hd]; exact store_take left r.data (by omega)
  simp only [nextReply, ht, size_sub_of_le h1 hb,
    max0_of_nonneg h0, List.append_assoc, List.cons_append, List.nil_append]

theorem dataMatches_cons {r : Reply} {rs : List Reply} (h : dataMatches (r :: rs) = true) :
    r.data.length = r.rv.toNat ∧ dataMatches rs = true := by
  simpa [dataMatches] using h

theorem dataMatches_append {ws rs : List Reply} (h : dataMatches (ws ++ rs) = true) :
    dataMatches ws = true ∧ dataMatches rs = true := by
  simp only [dataMatches, List.all_append, Bool.and_eq_true] at h
  exact h

theorem delivered_cons (r : Reply) (rs : List Reply) :
    delivered (r :: rs) = r.data ++ delivered rs := by
  simp [delivered]

theorem delivered_append (ws rs : List Reply) :
    delivered (ws ++ rs) = delivered ws ++ delivered rs := by
  simp [delivered]

/-- The read phase while bytes are still missing: after two iterations per
completion the object is in `STATE_READ` again and `buffer_` holds what has
been delivered. -/
theorem read_phase_partial (auth : SOCKSAuthUsernamePassword)
    (rest : List Reply) (rs : List Reply) :
    ∀ (acc : List Byte) (left : Nat) (io : List Byte) (rv : Int) (log : List Event),
      left < SIZE_MOD → inRange left rs = true → dataMatches rs = true → total rs < left →
      ∃ rv1 io1, DoIter (2 * rs.length) (running rv ⟨auth, STATE_READ, acc, left, io⟩
          ⟨rs ++ rest, log⟩) =
        running rv1 ⟨auth, STATE_READ, acc ++ delivered rs, left - total rs, io1⟩
          ⟨rest, log ++ readLog left rs⟩ := by
  induction rs with
  | nil =>
    intro acc left io rv log _ _ _ _
    exact ⟨rv, io, by simp [DoIter_zero, total_nil, readLog, delivered]⟩
  | cons r rs ih =>
    intro acc left io rv log hb hr hd ht
    obtain ⟨h0, h1, h2⟩ := inRange_cons hr
    obtain ⟨hd1, hd2⟩ := dataMatches_cons hd
    rw [total_cons] at ht
    have hk : 2 * (r :: rs).length = 2 + 2 * rs.length := by simp; omega
    rw [hk, DoIter_add, List.cons_append, read_round auth acc io left rv r _ log hb h0 h1 hd1]
    have hne : ¬ (left - r.rv.toNat = 0) := by omega
    rw [if_neg hne]
    obtain ⟨rv1, io1, h⟩ := ih (acc ++ r.data) (left - r.rv.toNat) (store (IOBuffer left) r.data)
      OK (log ++ [BeginEvent SOCKS5_AUTH_READ, Read left,
          EndEventWithNetErrorCode SOCKS5_AUTH_READ r.rv]) (by omega) h2 hd2 (by omega)
    refine ⟨rv1, io1, ?_⟩
    rw [h, total_cons, delivered_cons]
    simp only [readLog, List.append_assoc, Nat.sub_sub]

theorem readLog_append (ws rs : List Reply) :
    ∀ left, readLog left (ws ++ rs) = readLog left ws ++ readLog (left - total ws) rs := by
  induction ws with
  | nil => intro left; simp [readLog, total_nil]
  | cons r ws ih =>
    intro left
    rw [List.cons_append]
    simp only [readLog]
    rw [ih, total_cons, Nat.sub_sub]
    simp

/-- The read phase up to and including the completion that delivers the last
missing byte: the object is then in `STATE_DONE` with everything delivered in
`buffer_`. -/
theorem read_phase_complete (auth : SOCKSAuthUsernamePassword)
    (rest : List Reply) (rs : List Reply) (r : Reply) (acc : List Byte) (left : Nat)
    (io : List Byte) (rv : Int) (log : List Event) (hb : left < SIZE_MOD)
    (hr : inRange left (rs ++ [r]) = true) (hd : dataMatches (rs ++ [r]) = true)
    (ht : total rs < left) (hsum : total (rs ++ [r]) = left) :
    ∃ io1, DoIter (2 * rs.length + 2) (running rv ⟨auth, STATE_READ, acc, left, io⟩
        ⟨rs ++ r :: rest, log⟩) =
      running OK ⟨auth, STATE_DONE, acc ++ delivered (rs ++ [r]), 0, io1⟩
        ⟨rest, log ++ readLog left (rs ++ [r])⟩ := by
  obtain ⟨hd1, hd2⟩ := dataMatches_append hd
  obtain ⟨rv1, io1, h⟩ := read_phase_partial auth (r :: rest) rs acc left io rv log hb
    (inRange_append hr) hd1 ht
  rw [total_append, total_cons, total_nil] at hsum
  have h0 : 0 ≤ r.rv := by
    by_contra hneg
    have : r.rv.toNat = 0 := Int.toNat_eq_zero.mpr (by omega)
    omega
  rw [DoIter_add, h, read_round auth _ io1 (left - total rs) rv1 r rest _ (by omega) h0
    (by omega) (dataMatches_cons hd2).1]
  have hz : left - total rs - r.rv.toNat = 0 := by omega
  refine ⟨store (IOBuffer (left - total rs)) r.data, ?_⟩
  rw [hz, if_pos rfl, readLog_append, delivered_append]
  simp [readLog, delivered]

/-! ## A whole exchange in one call -/

theorem DoIter_one (c : Config) : DoIter 1 c = loopBody c := rfl

/-- A run in which every write and every read completes at once: the writes
`ws ++ [w]` account for the whole request, the reads `rs ++ [r]` deliver the
two response bytes.  `Do` returns the verdict on the two bytes, leaves the
object in `STATE_BAD` and does not touch the socket after the last read. -/
theorem Do_full_run (auth : SOCKSAuthUsernamePassword) (ws rs rest : List Reply) (w r : Reply)
    (log : List Event) (b0 b1 : Byte)
    (hsize : (request auth).length < SIZE_MOD)
    (hw : inRange (request auth).length (ws ++ [w]) = true)
    (hwt : total ws < (request auth).length)
    (hwsum : total (ws ++ [w]) = (request auth).length)
    (hr : inRange 2 (rs ++ [r]) = true) (hd : dataMatches (rs ++ [r]) = true)
    (hrt : total rs < 2) (hrsum : total (rs ++ [r]) = 2)
    (hbytes : delivered (rs ++ [r]) = [b0, b1]) :
    ∃ io, Do OK (Initialize auth) ⟨ws ++ w :: (rs ++ r :: rest), log⟩ =
      some (verdict b0 b1, ⟨auth, STATE_BAD, [b0, b1], 0, io⟩,
        ⟨rest, log ++ writeLog (request auth) (request auth).length (ws ++ [w])
          ++ readLog 2 (rs ++ [r])⟩) := by
  obtain ⟨io1, h2⟩ := write_phase_complete auth (request auth) (rs ++ r :: rest) ws w
    (request auth).length [] OK log (Nat.le_refl _) hsize hw hwt hwsum
  obtain ⟨io2, h4⟩ := read_phase_complete auth rest rs r [] 2
    (IOBuffer kSOCKSAuthUsernamePasswordResponseLen) OK
    (log ++ writeLog (request auth) (request auth).length (ws ++ [w]))
    (by decide) hr hd hrt hrsum
  have e1 : DoIter 1 (running OK (Initialize auth) ⟨ws ++ w :: (rs ++ r :: rest), log⟩) =
      running OK ⟨auth, STATE_WRITE, request auth, (request auth).length, []⟩
        ⟨ws ++ w :: (rs ++ r :: rest), log⟩ := by
    rw [DoIter_one, loopBody_init_write OK _ _ rfl]
    rfl
  have e3 : DoIter (1 + (2 * ws.length + 2) + 1)
      (running OK (Initialize auth) ⟨ws ++ w :: (rs ++ r :: rest), log⟩) =
      running OK ⟨auth, STATE_READ, [], 2, IOBuffer kSOCKSAuthUsernamePasswordResponseLen⟩
        ⟨rs ++ r :: rest, log ++ writeLog (request auth) (request auth).length (ws ++ [w])⟩ := by
    rw [DoIter_add, DoIter_add, e1, h2, DoIter_one,
      loopBody_brk (step_init_read _ _ _ rfl) OK_ne_pending]
    rfl
  refine ⟨io2, Do_of_DoIter (k := 1 + (2 * ws.length + 2) + 1 + (2 * rs.length + 2) + 1) ?_⟩
  rw [DoIter_add, DoIter_add, e3, h4, DoIter_one, loopBody_ret (step_done _ _ _ rfl)]
  simp only [List.nil_append, hbytes]
  simp [verdict]

/-- The call that carries the completion of the read delivering the last
missing byte: `Do` returns the verdict without touching the socket. -/
theorem Do_last_read_notified (rv : Int) (s : State) (t : ClientSocketHandle) (b0 b1 : Byte)
    (hs : s.next_state_ = STATE_READ_COMPLETE) (h0 : 0 ≤ rv) (hleft : rv.toNat = s.buffer_left_)
    (hb : s.buffer_left_ < SIZE_MOD) (hbytes : s.buffer_ ++ s.iobuf_.take rv.toNat = [b0, b1]) :
    Do rv s t = some (verdict b0 b1,
      { s with buffer_ := [b0, b1], buffer_left_ := 0, next_state_ := STATE_BAD },
      { t with log := t.log ++ [EndEventWithNetErrorCode SOCKS5_AUTH_READ rv] }) := by
  apply Do_of_DoIter (k := 2)
  rw [DoIter_succ, DoIter_succ, DoIter_zero,
    loopBody_brk (step_read_complete _ _ _ hs h0) OK_ne_pending]
  have hz : size_sub s.buffer_left_ rv.toNat = 0 := by
    rw [size_sub_of_le (by omega) hb]; omega
  rw [hz, if_pos rfl, loopBody_ret (step_done _ _ _ rfl), hbytes, max0_of_nonneg h0]
  simp [verdict]

theorem verdict_eq_OK_iff (b0 b1 : Byte) : verdict b0 b1 = OK ↔ b0 = 0x01 ∧ b1 = 0x00 := by
  unfold verdict
  split_ifs with h
  · exact ⟨fun _ => h, fun _ => rfl⟩
  · exact ⟨fun hk => absurd hk (by decide), fun hk => absurd hk h⟩

theorem verdict_of_not (b0 b1 : Byte) (h : ¬ (b0 = 0x01 ∧ b1 = 0x00)) :
    verdict b0 b1 = ERR_FAILED := by
  unfold verdict
  rw [if_neg h]

theorem request_length3 (u p : List Byte) :
    (request ⟨u, p⟩).length = 3 + u.length + p.length := by
  rw [request_length]; simp only []; omega

theorem getLast_readLog (xs : List Event) (left : Nat) (rs : List Reply) (r : Reply) :
    (xs ++ readLog left (rs ++ [r])).getLast?
      = some (EndEventWithNetErrorCode SOCKS5_AUTH_READ r.rv) := by
  rw [readLog_append]
  simp [readLog]

/-- C3: in every run in which the writes account for the whole request and
the reads deliver the two bytes `b0`, `b1` without error, `Do` returns `OK`
exactly when `b0 = 0x01` and `b1 = 0x00` and `ERR_FAILED` for every other
pair; the object is then in `STATE_BAD`, the last thing in the log is the end
event of the read that delivered the second byte, and no scripted reply after
it has been used.  The same holds for the call that carries the completion of
that read as a notification.  The responses `01 01` and `02 00` give
`ERR_FAILED`. -/
theorem C3_response_verdict :
    (∀ (u p : List Byte) (ws rs rest : List Reply) (w r : Reply) (b0 b1 : Byte),
      3 + u.length + p.length < SIZE_MOD →
      inRange (3 + u.length + p.length) (ws ++ [w]) = true →
      total ws < 3 + u.length + p.length →
      total (ws ++ [w]) = 3 + u.length + p.length →
      inRange 2 (rs ++ [r]) = true → dataMatches (rs ++ [r]) = true →
      total rs < 2 → total (rs ++ [r]) = 2 →
      delivered (rs ++ [r]) = [b0, b1] →
      ∃ res s1 t1,
        Do OK (Initialize ⟨u, p⟩) ⟨ws ++ w :: (rs ++ r :: rest), []⟩ = some (res, s1, t1) ∧
        (res = OK ↔ b0 = 0x01 ∧ b1 = 0x00) ∧
        (¬ (b0 = 0x01 ∧ b1 = 0x00) → res = ERR_FAILED) ∧
        s1.next_state_ = STATE_BAD ∧
        t1.replies = rest ∧
        t1.log.getLast? = some (EndEventWithNetErrorCode SOCKS5_AUTH_READ r.rv)) ∧
    (∀ (rv : Int) (s : State) (t : ClientSocketHandle) (b0 b1 : Byte),
      s.next_state_ = STATE_READ_COMPLETE → 0 ≤ rv → rv.toNat = s.buffer_left_ →
      s.buffer_left_ < SIZE_MOD → s.buffer_ ++ s.iobuf_.take rv.toNat = [b0, b1] →
      ∃ res s1,
        Do rv s t = some (res, s1,
          { t with log := t.log ++ [EndEventWithNetErrorCode SOCKS5_AUTH_READ rv] }) ∧
        (res = OK ↔ b0 = 0x01 ∧ b1 = 0x00) ∧
        (¬ (b0 = 0x01 ∧ b1 = 0x00) → res = ERR_FAILED) ∧
        s1.next_state_ = STATE_BAD) ∧
    (∃ s1 t1, Do OK (Initialize ⟨bob, secret⟩) ⟨[⟨12, []⟩, ⟨2, [0x01, 0x01]⟩], []⟩
        = some (ERR_FAILED, s1, t1)) ∧
    (∃ s1 t1, Do OK (Initialize ⟨bob, secret⟩) ⟨[⟨12, []⟩, ⟨2, [0x02, 0x00]⟩], []⟩
        = some (ERR_FAILED, s1, t1)) := by
  refine ⟨?_, ?_, ?_, ?_⟩
  · intro u p ws rs rest w r b0 b1 hsize hw hwt hwsum hr hd hrt hrsum hbytes
    rw [← request_length3 u p] at hsize hw hwt hwsum
    obtain ⟨io, h⟩ := Do_full_run ⟨u, p⟩ ws rs rest w r [] b0 b1 hsize hw hwt hwsum hr hd hrt
      hrsum hbytes
    exact ⟨_, _, _, h, verdict_eq_OK_iff b0 b1, verdict_of_not b0 b1, rfl, rfl,
      getLast_readLog _ _ _ _⟩
  · intro rv s t b0 b1 hs h0 hleft hb hbytes
    exact ⟨_, _, Do_last_read_notified rv s t b0 b1 hs h0 hleft hb hbytes,
      verdict_eq_OK_iff b0 b1, verdict_of_not b0 b1, rfl⟩
  · obtain ⟨io, h⟩ := Do_full_run ⟨bob, secret⟩ [] [] [] ⟨12, []⟩ ⟨2, [0x01, 0x01]⟩ [] 0x01 0x01
      (by decide) (by decide) (by decide) (by decide) (by decide) (by decide) (by decide)
      (by decide) (by decide)
    exact ⟨_, _, h⟩
  · obtain ⟨io, h⟩ := Do_full_run ⟨bob, secret⟩ [] [] [] ⟨12, []⟩ ⟨2, [0x02, 0x00]⟩ [] 0x02 0x00
      (by decide) (by decide) (by decide) (by decide) (by decide) (by decide) (by decide)
      (by decide) (by decide)
    exact ⟨_, _, h⟩

/-- C3 at the request for "bob" / "secret" written in two pieces (5 and 7
bytes) and the response `01 00` read one byte at a time, in one call and with
the second byte notified. -/
theorem C3_response_verdict_witness :
    (∃ res s1 t1,
      Do OK (Initialize ⟨bob, secret⟩)
        ⟨[⟨5, []⟩] ++ ⟨7, []⟩ :: ([⟨1, [0x01]⟩] ++ ⟨1, [0x00]⟩ :: []), []⟩ = some (res, s1, t1) ∧
      (res = OK ↔ (0x01 : Byte) = 0x01 ∧ (0x00 : Byte) = 0x00) ∧
      (¬ ((0x01 : Byte) = 0x01 ∧ (0x00 : Byte) = 0x00) → res = ERR_FAILED) ∧
      s1.next_state_ = STATE_BAD ∧
      t1.replies = [] ∧
      t1.log.getLast? = some (EndEventWithNetErrorCode SOCKS5_AUTH_READ 1)) ∧
    (∃ res s1,
      Do 1 ⟨⟨bob, secret⟩, STATE_READ_COMPLETE, [0x01], 1, [0x00]⟩ ⟨[], []⟩ = some (res, s1,
        { (⟨[], []⟩ : ClientSocketHandle) with
          log := [] ++ [EndEventWithNetErrorCode SOCKS5_AUTH_READ 1] }) ∧
      (res = OK ↔ (0x01 : Byte) = 0x01 ∧ (0x00 : Byte) = 0x00) ∧
      (¬ ((0x01 : Byte) = 0x01 ∧ (0x00 : Byte) = 0x00) → res = ERR_FAILED) ∧
      s1.next_state_ = STATE_BAD) :=
  ⟨C3_response_verdict.1 bob secret [⟨5, []⟩] [⟨1, [0x01]⟩] [] ⟨7, []⟩ ⟨1, [0x00]⟩ 0x01 0x00
    (by decide) (by decide) (by decide) (by decide) (by decide) (by decide) (by decide)
    (by decide) (by decide),
   C3_response_verdict.2.1 1 ⟨⟨bob, secret⟩, STATE_READ_COMPLETE, [0x01], 1, [0x00]⟩ ⟨[], []⟩
    0x01 0x00 rfl (by decide) (by decide) (by decide) (by decide)⟩

/-- C4: for credentials of at most 255 bytes each, when the first write
accepts the whole request at once and the first read returns the two bytes
`01 00` at once, a single call `Do(OK)` on a fresh object returns `OK` (not
`ERR_IO_PENDING`), leaves the object in `STATE_BAD`, and the log holds exactly
one write of the whole request followed by exactly one read of 2 bytes. -/
theorem C4_synchronous_success (u p : List Byte) (w r : Reply) (rest : List Reply)
    (hu : u.length ≤ 255) (hp : p.length ≤ 255)
    (hw : w.rv = ((2 + u.length + 1 + p.length : Nat) : Int))
    (hr : r.rv = 2) (hdata : r.data = [0x01, 0x00]) :
    ∃ res s1 t1, Do OK (Initialize ⟨u, p⟩) ⟨w :: r :: rest, []⟩ = some (res, s1, t1) ∧
      res = OK ∧ res ≠ ERR_IO_PENDING ∧
      s1.next_state_ = STATE_BAD ∧
      t1.replies = rest ∧
      t1.log = [BeginEvent SOCKS5_AUTH_WRITE,
        Write (request ⟨u, p⟩) (2 + u.length + 1 + p.length),
        EndEventWithNetErrorCode SOCKS5_AUTH_WRITE ((2 + u.length + 1 + p.length : Nat) : Int),
        BeginEvent SOCKS5_AUTH_READ, Read 2,
        EndEventWithNetErrorCode SOCKS5_AUTH_READ 2] ∧
      writesOf t1.log = [(request ⟨u, p⟩, 2 + u.length + 1 + p.length)] ∧
      readsOf t1.log = [2] := by
  have hl := request_length ⟨u, p⟩
  simp only [] at hl
  have hwn : w.rv.toNat = (request ⟨u, p⟩).length := by rw [hw, hl]; exact Int.toNat_ofNat _
  have hw0 : 0 ≤ w.rv := by rw [hw]; exact Int.ofNat_nonneg _
  have hrn : r.rv.toNat = 2 := by rw [hr]; rfl
  obtain ⟨io, h⟩ := Do_full_run ⟨u, p⟩ [] [] rest w r [] 0x01 0x00
    (by rw [hl]; unfold SIZE_MOD; omega)
    (by simp [inRange, hw0, hwn])
    (by rw [hl, total_nil]; omega)
    (by simp [total_cons, total_nil, hwn])
    (by simp [inRange, hr])
    (by simp [dataMatches, hdata, hr])
    (by rw [total_nil]; omega)
    (by simp [total_cons, total_nil, hrn])
    (by simp [delivered, hdata])
  have hv : verdict 0x01 0x00 = OK := by decide
  rw [hv] at h
  simp only [List.nil_append, writeLog, readLog, List.append_nil, List.cons_append, hl,
    Nat.sub_self, List.drop_zero, hw, hr] at h
  refine ⟨_, _, _, h, rfl, OK_ne_pending, rfl, rfl, rfl, ?_, ?_⟩
  · simp [writesOf]
  · simp [readsOf]

/-- C4 for "bob" / "secret". -/
theorem C4_synchronous_success_witness :
    ∃ res s1 t1, Do OK (Initialize ⟨bob, secret⟩) ⟨⟨12, []⟩ :: ⟨2, [0x01, 0x00]⟩ :: [], []⟩
        = some (res, s1, t1) ∧
      res = OK ∧ res ≠ ERR_IO_PENDING ∧
      s1.next_state_ = STATE_BAD ∧
      t1.replies = [] ∧
      t1.log = [BeginEvent SOCKS5_AUTH_WRITE,
        Write (request ⟨bob, secret⟩) (2 + bob.length + 1 + secret.length),
        EndEventWithNetErrorCode SOCKS5_AUTH_WRITE ((2 + bob.length + 1 + secret.length : Nat) : Int),
        BeginEvent SOCKS5_AUTH_READ, Read 2,
        EndEventWithNetErrorCode SOCKS5_AUTH_READ 2] ∧
      writesOf t1.log = [(request ⟨bob, secret⟩, 2 + bob.length + 1 + secret.length)] ∧
      readsOf t1.log = [2] :=
  C4_synchronous_success bob secret ⟨12, []⟩ ⟨2, [0x01, 0x00]⟩ [] (by decide) (by decide)
    (by decide) (by decide) (by decide)

/-! ## No read before the request is written -/

theorem readsOf_append (xs ys : List Event) : readsOf (xs ++ ys) = readsOf xs ++ readsOf ys := by
  induction xs with
  | nil => rfl
  | cons e xs ih => cases e <;> simp [readsOf, ih]

theorem writesOf_append (xs ys : List Event) :
    writesOf (xs ++ ys) = writesOf xs ++ writesOf ys := by
  induction xs with
  | nil => rfl
  | cons e xs ih => cases e <;> simp [writesOf, ih]

theorem readsOf_writeLog (b : List Byte) (ws : List Reply) :
    ∀ left, readsOf (writeLog b left ws) = [] := by
  induction ws with
  | nil => intro left; rfl
  | cons r ws ih => intro left; simp [writeLog, readsOf, ih]

theorem writesOf_writeLog_length (b : List Byte) (ws : List Reply) :
    ∀ left, (writesOf (writeLog b left ws)).length = ws.length := by
  induction ws with
  | nil => intro left; rfl
  | cons r ws ih => intro left; simp [writeLog, writesOf, ih]

/-- The iteration of `STATE_WRITE` when the socket answers at once with a
count. -/
theorem write_issue (auth : SOCKSAuthUsernamePassword) (b io : List Byte) (left : Nat) (rv : Int)
    (r : Reply) (rest : List Reply) (log : List Event) (h0 : 0 ≤ r.rv) :
    loopBody (running rv ⟨auth, STATE_WRITE, b, left, io⟩ ⟨r :: rest, log⟩) =
      running r.rv
        ⟨auth, STATE_WRITE_COMPLETE, b, left, (b.drop (size_sub b.length left)).take left⟩
        ⟨rest, log ++ [BeginEvent SOCKS5_AUTH_WRITE,
          Write ((b.drop (size_sub b.length left)).take left) left]⟩ := by
  rw [loopBody_brk (step_write _ _ _ rfl) (by simpa [nextReply] using ne_pending_of_nonneg h0)]
  rfl

/-- While the completions seen do not account for the whole buffer, every
configuration on the way is in the write phase. -/
theorem write_phase_trajectory (auth : SOCKSAuthUsernamePassword) (b : List Byte)
    (rest : List Reply) (ws : List Reply) :
    ∀ (left : Nat) (io : List Byte) (rv : Int) (log : List Event) (k : Nat),
      left ≤ b.length → b.length < SIZE_MOD → inRange left ws = true → total ws < left →
      readsOf log = [] → k ≤ 2 * ws.length →
      inWritePhase (DoIter k (running rv ⟨auth, STATE_WRITE, b, left, io⟩ ⟨ws ++ rest, log⟩)) := by
  induction ws with
  | nil =>
    intro left io rv log k _ _ _ _ hlog hk
    have hk0 : k = 0 := by simpa using hk
    subst hk0
    exact ⟨rfl, Or.inr (Or.inl rfl), hlog⟩
  | cons r ws ih =>
    intro left io rv log k hl hb hr ht hlog hk
    obtain ⟨h0, h1, h2⟩ := inRange_cons hr
    rw [total_cons] at ht
    rcases k with _ | _ | k
    · exact ⟨rfl, Or.inr (Or.inl rfl), hlog⟩
    · rw [DoIter_one, List.cons_append, write_issue auth b io left rv r _ log h0]
      refine ⟨rfl, Or.inr (Or.inr rfl), ?_⟩
      simp [Config.transport, readsOf_append, hlog, readsOf]
    · have hk2 : k + 1 + 1 = 2 + k := by omega
      rw [hk2, DoIter_add, List.cons_append, write_round auth b io left rv r _ log hl hb h0 h1]
      have hne : ¬ (left - r.rv.toNat = 0) := by omega
      rw [if_neg hne]
      apply ih _ _ _ _ _ (by omega) hb h2 (by omega)
      · simp [readsOf_append, hlog, readsOf]
      · simp only [List.length_cons] at hk
        omega

/-- The configurations of a fresh object up to the processing of the write
completions `ws`, which do not account for the whole request. -/
theorem fresh_write_phase (auth : SOCKSAuthUsernamePassword) (ws rest : List Reply) (k : Nat)
    (hsize : (request auth).length < SIZE_MOD)
    (hr : inRange (request auth).length ws = true) (ht : total ws < (request auth).length)
    (hk : k ≤ 2 * ws.length + 1) :
    inWritePhase (DoIter k (running OK (Initialize auth) ⟨ws ++ rest, []⟩)) := by
  rcases k with _ | k
  · exact ⟨rfl, Or.inl rfl, rfl⟩
  · rw [Nat.add_comm, DoIter_add, DoIter_one, loopBody_init_write OK _ _ rfl]
    exact write_phase_trajectory auth (request auth) rest ws _ _ _ _ k (Nat.le_refl _) hsize hr ht
      rfl (by omega)

/-- The configurations of a fresh object up to and including the completion
that accounts for the last byte of the request. -/
theorem fresh_write_phase_last (auth : SOCKSAuthUsernamePassword) (ws rest : List Reply)
    (r : Reply) (hsize : (request auth).length < SIZE_MOD)
    (hr : inRange (request auth).length (ws ++ [r]) = true)
    (ht : total ws < (request auth).length)
    (hsum : total (ws ++ [r]) = (request auth).length) :
    (∀ k, k ≤ 2 * ws.length + 2 →
      inWritePhase (DoIter k (running OK (Initialize auth) ⟨ws ++ r :: rest, []⟩))) ∧
    ∃ io, DoIter (2 * ws.length + 3) (running OK (Initialize auth) ⟨ws ++ r :: rest, []⟩) =
      running OK ⟨auth, STATE_INIT_READ, request auth, 0, io⟩
        ⟨rest, writeLog (request auth) (request auth).length (ws ++ [r])⟩ := by
  have hsum2 := hsum
  rw [total_append, total_cons, total_nil] at hsum2
  have h0 : 0 ≤ r.rv := by
    by_contra hneg
    have : r.rv.toNat = 0 := Int.toNat_eq_zero.mpr (by omega)
    omega
  have e1 : DoIter 1 (running OK (Initialize auth) ⟨ws ++ r :: rest, []⟩) =
      running OK ⟨auth, STATE_WRITE, request auth, (request auth).length, []⟩
        ⟨ws ++ r :: rest, []⟩ := by
    rw [DoIter_one, loopBody_init_write OK _ _ rfl]
    rfl
  constructor
  · intro k hk
    rcases Nat.lt_or_ge k (2 * ws.length + 2) with hlt | hge
    · exact fresh_write_phase auth ws (r :: rest) k hsize (inRange_append hr) ht (by omega)
    · have hk2 : k = 1 + 2 * ws.length + 1 := by omega
      obtain ⟨rv1, io1, h⟩ := write_phase_partial auth (request auth) (r :: rest) ws
        (request auth).length [] OK [] (Nat.le_refl _) hsize (inRange_append hr) ht
      rw [hk2, DoIter_add, DoIter_add, e1, h, DoIter_one, write_issue _ _ _ _ _ _ _ _ h0]
      refine ⟨rfl, Or.inr (Or.inr rfl), ?_⟩
      simp [Config.transport, readsOf_append, readsOf_writeLog, readsOf]
  · obtain ⟨io, h⟩ := write_phase_complete auth (request auth) rest ws r (request auth).length
      [] OK [] (Nat.le_refl _) hsize hr ht hsum
    refine ⟨io, ?_⟩
    have hk : 2 * ws.length + 3 = 1 + (2 * ws.length + 2) := by omega
    rw [hk, DoIter_add, e1, h, List.nil_append]

/-- C5: let the write completions have counts between 0 and the bytes still
unwritten.  While their sum is below the request length, every configuration
of the call is in the write phase: not in `STATE_INIT_READ` and with no `Read`
issued.  When a completion brings the sum to the request length, the very next
iteration runs `STATE_INIT_READ`, and not one before it: all writes and no read
are then in the log.  For "bob" / "secret" written one byte per completion
this is after the twelfth completion (iteration 25), and not during the first
24 iterations. -/
theorem C5_read_phase_starts_when_all_written :
    (∀ (u p : List Byte) (ws rest : List Reply) (k : Nat),
      3 + u.length + p.length < SIZE_MOD →
      inRange (3 + u.length + p.length) ws = true →
      total ws < 3 + u.length + p.length →
      k ≤ 2 * ws.length + 1 →
      inWritePhase (DoIter k (running OK (Initialize ⟨u, p⟩) ⟨ws ++ rest, []⟩))) ∧
    (∀ (u p : List Byte) (ws rest : List Reply) (r : Reply),
      3 + u.length + p.length < SIZE_MOD →
      inRange (3 + u.length + p.length) (ws ++ [r]) = true →
      total ws < 3 + u.length + p.length →
      total (ws ++ [r]) = 3 + u.length + p.length →
      (∀ k, k ≤ 2 * ws.length + 2 →
        inWritePhase (DoIter k (running OK (Initialize ⟨u, p⟩) ⟨ws ++ r :: rest, []⟩))) ∧
      ∃ rv1 s1 t1,
        DoIter (2 * ws.length + 3) (running OK (Initialize ⟨u, p⟩) ⟨ws ++ r :: rest, []⟩)
          = running rv1 s1 t1 ∧
        s1.next_state_ = STATE_INIT_READ ∧ t1.replies = rest ∧
        readsOf t1.log = [] ∧ (writesOf t1.log).length = ws.length + 1) ∧
    ((∀ k, k ≤ 24 →
        inWritePhase (DoIter k (running OK (Initialize ⟨bob, secret⟩) ⟨oneByteWrites, []⟩))) ∧
      (DoIter 25 (running OK (Initialize ⟨bob, secret⟩) ⟨oneByteWrites, []⟩)).state.next_state_
        = STATE_INIT_READ) := by
  refine ⟨?_, ?_, ?_⟩
  · intro u p ws rest k hsize hr ht hk
    rw [← request_length3 u p] at hsize hr ht
    exact fresh_write_phase ⟨u, p⟩ ws rest k hsize hr ht hk
  · intro u p ws rest r hsize hr ht hsum
    rw [← request_length3 u p] at hsize hr ht hsum
    obtain ⟨h1, io, h2⟩ := fresh_write_phase_last ⟨u, p⟩ ws rest r hsize hr ht hsum
    refine ⟨h1, _, _, _, h2, rfl, rfl, readsOf_writeLog _ _ _, ?_⟩
    simp [writesOf_writeLog_length]
  · obtain ⟨h1, io, h2⟩ := fresh_write_phase_last ⟨bob, secret⟩ (List.replicate 11 ⟨1, []⟩) []
      ⟨1, []⟩ (by decide) (by decide) (by decide) (by decide)
    have e : List.replicate 11 (⟨1, []⟩ : Reply) ++ [⟨1, []⟩] = oneByteWrites := by decide
    rw [e] at h1 h2
    refine ⟨fun k hk => h1 k (by simpa using hk), ?_⟩
    have h3 : 2 * (List.replicate 11 (⟨1, []⟩ : Reply)).length + 3 = 25 := by decide
    rw [h3] at h2
    rw [h2]
    rfl

/-- C5 for "bob" / "secret": after a completion of 5 bytes the call is still
in the write phase; the completion of the other 7 bytes brings it to
`STATE_INIT_READ`. -/
theorem C5_read_phase_starts_when_all_written_witness :
    inWritePhase (DoIter 3 (running OK (Initialize ⟨bob, secret⟩) ⟨[⟨5, []⟩] ++ [⟨7, []⟩], []⟩)) ∧
    ((∀ k, k ≤ 2 * [(⟨5, []⟩ : Reply)].length + 2 →
        inWritePhase (DoIter k (running OK (Initialize ⟨bob, secret⟩)
          ⟨[⟨5, []⟩] ++ ⟨7, []⟩ :: [], []⟩))) ∧
      ∃ rv1 s1 t1,
        DoIter (2 * [(⟨5, []⟩ : Reply)].length + 3) (running OK (Initialize ⟨bob, secret⟩)
          ⟨[⟨5, []⟩] ++ ⟨7, []⟩ :: [], []⟩) = running rv1 s1 t1 ∧
        s1.next_state_ = STATE_INIT_READ ∧ t1.replies = [] ∧
        readsOf t1.log = [] ∧ (writesOf t1.log).length = [(⟨5, []⟩ : Reply)].length + 1) :=
  ⟨C5_read_phase_starts_when_all_written.1 bob secret [⟨5, []⟩] [⟨7, []⟩] 3
      (by decide) (by decide) (by decide) (by decide),
   C5_read_phase_starts_when_all_written.2.1 bob secret [⟨5, []⟩] [] ⟨7, []⟩
      (by decide) (by decide) (by decide) (by decide)⟩

/-! ## Negative results -/

theorem max0_of_neg {rv : Int} (h : rv < 0) : max0 rv = 0 := by
  simp [max0, h]

/-- The call (or the iteration) that sees a negative result in
`STATE_WRITE_COMPLETE` returns it at once. -/
theorem Do_write_complete_neg (c : Int) (s : State) (t : ClientSocketHandle)
    (hs : s.next_state_ = STATE_WRITE_COMPLETE) (hc : c < 0) :
    loopBody (running c s t) = returned c { s with next_state_ := STATE_BAD }
        { t with log := t.log ++ [EndEventWithNetErrorCode SOCKS5_AUTH_WRITE (max0 c)] } ∧
    Do c s t = some (c, { s with next_state_ := STATE_BAD },
        { t with log := t.log ++ [EndEventWithNetErrorCode SOCKS5_AUTH_WRITE (max0 c)] }) := by
  have h := loopBody_ret (step_write_complete_neg c s t hs hc)
  exact ⟨h, Do_of_DoIter (k := 1) h⟩

/-- The call (or the iteration) that sees a negative result in
`STATE_READ_COMPLETE` returns it at once. -/
theorem Do_read_complete_neg (c : Int) (s : State) (t : ClientSocketHandle)
    (hs : s.next_state_ = STATE_READ_COMPLETE) (hc : c < 0) :
    loopBody (running c s t) = returned c { s with next_state_ := STATE_BAD }
        { t with log := t.log ++ [EndEventWithNetErrorCode SOCKS5_AUTH_READ (max0 c)] } ∧
    Do c s t = some (c, { s with next_state_ := STATE_BAD },
        { t with log := t.log ++ [EndEventWithNetErrorCode SOCKS5_AUTH_READ (max0 c)] }) := by
  have h := loopBody_ret (step_read_complete_neg c s t hs hc)
  exact ⟨h, Do_of_DoIter (k := 1) h⟩

/-- A write that fails at once: two iterations, then `Do` has returned. -/
theorem write_round_neg (auth : SOCKSAuthUsernamePassword) (b io : List Byte) (left : Nat)
    (rv : Int) (r : Reply) (rest : List Reply) (log : List Event)
    (hl : left ≤ b.length) (hb : b.length < SIZE_MOD) (hneg : r.rv < 0)
    (hp : r.rv ≠ ERR_IO_PENDING) :
    DoIter 2 (running rv ⟨auth, STATE_WRITE, b, left, io⟩ ⟨r :: rest, log⟩) =
      returned r.rv ⟨auth, STATE_BAD, b, left, b.drop (b.length - left)⟩
        ⟨rest, log ++ [BeginEvent SOCKS5_AUTH_WRITE, Write (b.drop (b.length - left)) left,
          EndEventWithNetErrorCode SOCKS5_AUTH_WRITE 0]⟩ := by
  rw [DoIter_succ, DoIter_succ, DoIter_zero]
  rw [loopBody_brk (step_write _ _ _ rfl) (by simpa [nextReply] using hp)]
  rw [loopBody_ret (step_write_complete_neg _ _ _ rfl (by simpa [nextReply] using hneg))]
  simp only [nextReply, offered_tail b left hl hb, max0_of_neg hneg, List.append_assoc,
    List.cons_append, List.nil_append]

/-- A read that fails at once: two iterations, then `Do` has returned. -/
theorem read_round_neg (auth : SOCKSAuthUsernamePassword) (acc io : List Byte) (left : Nat)
    (rv : Int) (r : Reply) (rest : List Reply) (log : List Event)
    (hneg : r.rv < 0) (hp : r.rv ≠ ERR_IO_PENDING) :
    DoIter 2 (running rv ⟨auth, STATE_READ, acc, left, io⟩ ⟨r :: rest, log⟩) =
      returned r.rv ⟨auth, STATE_BAD, acc, left, store (IOBuffer left) r.data⟩
        ⟨rest, log ++ [BeginEvent SOCKS5_AUTH_READ, Read left,
          EndEventWithNetErrorCode SOCKS5_AUTH_READ 0]⟩ := by
  rw [DoIter_succ, DoIter_succ, DoIter_zero]
  rw [loopBody_brk (step_read _ _ _ rfl) (by simpa [nextReply] using hp)]
  rw [loopBody_ret (step_read_complete_neg _ _ _ rfl (by simpa [nextReply] using hneg))]
  simp only [nextReply, max0_of_neg hneg, List.append_assoc, List.cons_append, List.nil_append]

/-- A fresh object: one iteration builds the request. -/
theorem fresh_to_write (auth : SOCKSAuthUsernamePassword) (t : ClientSocketHandle) :
    DoIter 1 (running OK (Initialize auth) t) =
      running OK ⟨auth, STATE_WRITE, request auth, (request auth).length, []⟩ t := by
  rw [DoIter_one, loopBody_init_write OK _ _ rfl]
  rfl

/-- A fresh object whose writes `ws ++ [w]` account for the request is in
`STATE_READ` with an empty `buffer_` after `2 * ws.length + 4` iterations. -/
theorem fresh_to_read (auth : SOCKSAuthUsernamePassword) (ws rest : List Reply) (w : Reply)
    (log : List Event) (hsize : (request auth).length < SIZE_MOD)
    (hw : inRange (request auth).length (ws ++ [w]) = true)
    (hwt : total ws < (request auth).length)
    (hwsum : total (ws ++ [w]) = (request auth).length) :
    DoIter (1 + (2 * ws.length + 2) + 1) (running OK (Initialize auth) ⟨ws ++ w :: rest, log⟩) =
      running OK ⟨auth, STATE_READ, [], 2, IOBuffer kSOCKSAuthUsernamePasswordResponseLen⟩
        ⟨rest, log ++ writeLog (request auth) (request auth).length (ws ++ [w])⟩ := by
  obtain ⟨io1, h2⟩ := write_phase_complete auth (request auth) rest ws w
    (request auth).length [] OK log (Nat.le_refl _) hsize hw hwt hwsum
  rw [DoIter_add, DoIter_add, fresh_to_write, h2, DoIter_one,
    loopBody_brk (step_init_read _ _ _ rfl) OK_ne_pending]
  rfl

/-- A run in which a write fails at once after the writes `ws`: `Do` returns
the error and no read has been issued. -/
theorem Do_write_fails (auth : SOCKSAuthUsernamePassword) (ws rest : List Reply) (bad : Reply)
    (hsize : (request auth).length < SIZE_MOD)
    (hr : inRange (request auth).length ws = true) (ht : total ws < (request auth).length)
    (hneg : bad.rv < 0) (hp : bad.rv ≠ ERR_IO_PENDING) :
    ∃ s1 t1, Do OK (Initialize auth) ⟨ws ++ bad :: rest, []⟩ = some (bad.rv, s1, t1) ∧
      s1.next_state_ = STATE_BAD ∧ t1.replies = rest ∧ readsOf t1.log = [] ∧
      (writesOf t1.log).length = ws.length + 1 ∧
      t1.log.getLast? = some (EndEventWithNetErrorCode SOCKS5_AUTH_WRITE 0) := by
  obtain ⟨rv1, io1, h⟩ := write_phase_partial auth (request auth) (bad :: rest) ws
    (request auth).length [] OK [] (Nat.le_refl _) hsize hr ht
  have hk : DoIter (1 + 2 * ws.length + 2)
      (running OK (Initialize auth) ⟨ws ++ bad :: rest, []⟩) =
      returned bad.rv ⟨auth, STATE_BAD, request auth, (request auth).length - total ws,
          (request auth).drop ((request auth).length - ((request auth).length - total ws))⟩
        ⟨rest, [] ++ writeLog (request auth) (request auth).length ws ++
          [BeginEvent SOCKS5_AUTH_WRITE,
            Write ((request auth).drop ((request auth).length - ((request auth).length - total ws)))
              ((request auth).length - total ws),
            EndEventWithNetErrorCode SOCKS5_AUTH_WRITE 0]⟩ := by
    rw [DoIter_add, DoIter_add, fresh_to_write, h,
      write_round_neg auth _ io1 _ rv1 bad rest _ (by omega) hsize hneg hp]
  refine ⟨_, _, Do_of_DoIter hk, rfl, rfl, ?_, ?_, ?_⟩
  · simp [readsOf_append, readsOf_writeLog, readsOf]
  · simp [writesOf_append, writesOf_writeLog_length, writesOf]
  · simp

/-- A run in which a read fails at once after the request has been written
and the reads `rs` have completed: `Do` returns the error from
`STATE_READ_COMPLETE`. -/
theorem Do_read_fails (auth : SOCKSAuthUsernamePassword) (ws rs rest : List Reply)
    (w bad : Reply) (hsize : (request auth).length < SIZE_MOD)
    (hw : inRange (request auth).length (ws ++ [w]) = true)
    (hwt : total ws < (request auth).length)
    (hwsum : total (ws ++ [w]) = (request auth).length)
    (hr : inRange 2 rs = true) (hd : dataMatches rs = true) (hrt : total rs < 2)
    (hneg : bad.rv < 0) (hp : bad.rv ≠ ERR_IO_PENDING) :
    ∃ s1 t1, Do OK (Initialize auth) ⟨ws ++ w :: (rs ++ bad :: rest), []⟩
        = some (bad.rv, s1, t1) ∧
      s1.next_state_ = STATE_BAD ∧ s1.buffer_ = delivered rs ∧ t1.replies = rest ∧
      t1.log.getLast? = some (EndEventWithNetErrorCode SOCKS5_AUTH_READ 0) := by
  obtain ⟨rv1, io1, h⟩ := read_phase_partial auth (bad :: rest) rs [] 2
    (IOBuffer kSOCKSAuthUsernamePasswordResponseLen) OK
    ([] ++ writeLog (request auth) (request auth).length (ws ++ [w])) (by decide) hr hd hrt
  have hk : DoIter (1 + (2 * ws.length + 2) + 1 + 2 * rs.length + 2)
      (running OK (Initialize auth) ⟨ws ++ w :: (rs ++ bad :: rest), []⟩) =
      returned bad.rv ⟨auth, STATE_BAD, [] ++ delivered rs, 2 - total rs,
          store (IOBuffer (2 - total rs)) bad.data⟩
        ⟨rest, [] ++ writeLog (request auth) (request auth).length (ws ++ [w]) ++ readLog 2 rs ++
          [BeginEvent SOCKS5_AUTH_READ, Read (2 - total rs),
            EndEventWithNetErrorCode SOCKS5_AUTH_READ 0]⟩ := by
    rw [DoIter_add, DoIter_add, fresh_to_read auth ws _ w [] hsize hw hwt hwsum, h,
      read_round_neg auth _ io1 _ rv1 bad rest _ hneg hp]
  refine ⟨_, _, Do_of_DoIter hk, rfl, by simp, rfl, by simp⟩

/-- C6: a negative result `c` of a write or of a read makes `Do` return
exactly `c` with the object in `STATE_BAD` and nothing more done to the socket.
By notification: the call `Do(c)` in `STATE_WRITE_COMPLETE` or
`STATE_READ_COMPLETE` returns in its first iteration (so `STATE_DONE`, which
validates the response, does not run), leaving the replies untouched and
adding only the end event to the log.  At once: when the socket call itself
returns `c` (a negative code other than `ERR_IO_PENDING`, which means
pending), `Do` returns `c`, uses no reply after it, and the end event is the
last entry of the log; if it was a write, at any point of the write phase, the
log holds no `Read`. -/
theorem C6_negative_result_aborts :
    (∀ (c : Int) (s : State) (t : ClientSocketHandle), c < 0 →
      s.next_state_ = STATE_WRITE_COMPLETE →
      loopBody (running c s t) = returned c { s with next_state_ := STATE_BAD }
        { t with log := t.log ++ [EndEventWithNetErrorCode SOCKS5_AUTH_WRITE (max0 c)] } ∧
      Do c s t = some (c, { s with next_state_ := STATE_BAD },
        { t with log := t.log ++ [EndEventWithNetErrorCode SOCKS5_AUTH_WRITE (max0 c)] })) ∧
    (∀ (c : Int) (s : State) (t : ClientSocketHandle), c < 0 →
      s.next_state_ = STATE_READ_COMPLETE →
      loopBody (running c s t) = returned c { s with next_state_ := STATE_BAD }
        { t with log := t.log ++ [EndEventWithNetErrorCode SOCKS5_AUTH_READ (max0 c)] } ∧
      Do c s t = some (c, { s with next_state_ := STATE_BAD },
        { t with log := t.log ++ [EndEventWithNetErrorCode SOCKS5_AUTH_READ (max0 c)] })) ∧
    (∀ (u p : List Byte) (ws rest : List Reply) (bad : Reply),
      3 + u.length + p.length < SIZE_MOD →
      inRange (3 + u.length + p.length) ws = true → total ws < 3 + u.length + p.length →
      bad.rv < 0 → bad.rv ≠ ERR_IO_PENDING →
      ∃ s1 t1, Do OK (Initialize ⟨u, p⟩) ⟨ws ++ bad :: rest, []⟩ = some (bad.rv, s1, t1) ∧
        s1.next_state_ = STATE_BAD ∧ t1.replies = rest ∧ readsOf t1.log = [] ∧
        (writesOf t1.log).length = ws.length + 1 ∧
        t1.log.getLast? = some (EndEventWithNetErrorCode SOCKS5_AUTH_WRITE 0)) ∧
    (∀ (u p : List Byte) (ws rs rest : List Reply) (w bad : Reply),
      3 + u.length + p.length < SIZE_MOD →
      inRange (3 + u.length + p.length) (ws ++ [w]) = true →
      total ws < 3 + u.length + p.length →
      total (ws ++ [w]) = 3 + u.length + p.length →
      inRange 2 rs = true → dataMatches rs = true → total rs < 2 →
      bad.rv < 0 → bad.rv ≠ ERR_IO_PENDING →
      ∃ s1 t1, Do OK (Initialize ⟨u, p⟩) ⟨ws ++ w :: (rs ++ bad :: rest), []⟩
          = some (bad.rv, s1, t1) ∧
        s1.next_state_ = STATE_BAD ∧ s1.buffer_ = delivered rs ∧ t1.replies = rest ∧
        t1.log.getLast? = some (EndEventWithNetErrorCode SOCKS5_AUTH_READ 0)) := by
  refine ⟨?_, ?_, ?_, ?_⟩
  · intro c s t hc hs
    exact Do_write_complete_neg c s t hs hc
  · intro c s t hc hs
    exact Do_read_complete_neg c s t hs hc
  · intro u p ws rest bad hsize hr ht hneg hp
    rw [← request_length3 u p] at hsize hr ht
    exact Do_write_fails ⟨u, p⟩ ws rest bad hsize hr ht hneg hp
  · intro u p ws rs rest w bad hsize hw hwt hwsum hr hd hrt hneg hp
    rw [← request_length3 u p] at hsize hw hwt hwsum
    exact Do_read_fails ⟨u, p⟩ ws rs rest w bad hsize hw hwt hwsum hr hd hrt hneg hp

/-- C6 for "bob" / "secret" and the error code -101: notified to a pending
write, notified to a pending read, returned at once by the second write, and
returned at once by the second read. -/
theorem C6_negative_result_aborts_witness :
    (loopBody (running (-101) ⟨⟨bob, secret⟩, STATE_WRITE_COMPLETE, request ⟨bob, secret⟩, 12,
          request ⟨bob, secret⟩⟩ ⟨[], []⟩)
        = returned (-101)
          { (⟨⟨bob, secret⟩, STATE_WRITE_COMPLETE, request ⟨bob, secret⟩, 12,
              request ⟨bob, secret⟩⟩ : State) with next_state_ := STATE_BAD }
          { (⟨[], []⟩ : ClientSocketHandle) with
            log := [] ++ [EndEventWithNetErrorCode SOCKS5_AUTH_WRITE (max0 (-101))] } ∧
      Do (-101) ⟨⟨bob, secret⟩, STATE_WRITE_COMPLETE, request ⟨bob, secret⟩, 12,
          request ⟨bob, secret⟩⟩ ⟨[], []⟩
        = some (-101,
          { (⟨⟨bob, secret⟩, STATE_WRITE_COMPLETE, request ⟨bob, secret⟩, 12,
              request ⟨bob, secret⟩⟩ : State) with next_state_ := STATE_BAD },
          { (⟨[], []⟩ : ClientSocketHandle) with
            log := [] ++ [EndEventWithNetErrorCode SOCKS5_AUTH_WRITE (max0 (-101))] })) ∧
    (loopBody (running (-101) ⟨⟨bob, secret⟩, STATE_READ_COMPLETE, [], 2, [0, 0]⟩ ⟨[], []⟩)
        = returned (-101)
          { (⟨⟨bob, secret⟩, STATE_READ_COMPLETE, [], 2, [0, 0]⟩ : State) with
            next_state_ := STATE_BAD }
          { (⟨[], []⟩ : ClientSocketHandle) with
            log := [] ++ [EndEventWithNetErrorCode SOCKS5_AUTH_READ (max0 (-101))] } ∧
      Do (-101) ⟨⟨bob, secret⟩, STATE_READ_COMPLETE, [], 2, [0, 0]⟩ ⟨[], []⟩
        = some (-101,
          { (⟨⟨bob, secret⟩, STATE_READ_COMPLETE, [], 2, [0, 0]⟩ : State) with
            next_state_ := STATE_BAD },
          { (⟨[], []⟩ : ClientSocketHandle) with
            log := [] ++ [EndEventWithNetErrorCode SOCKS5_AUTH_READ (max0 (-101))] })) ∧
    (∃ s1 t1, Do OK (Initialize ⟨bob, secret⟩) ⟨[⟨5, []⟩] ++ ⟨-101, []⟩ :: [], []⟩
        = some ((⟨-101, []⟩ : Reply).rv, s1, t1) ∧
      s1.next_state_ = STATE_BAD ∧ t1.replies = [] ∧ readsOf t1.log = [] ∧
      (writesOf t1.log).length = [(⟨5, []⟩ : Reply)].length + 1 ∧
      t1.log.getLast? = some (EndEventWithNetErrorCode SOCKS5_AUTH_WRITE 0)) ∧
    (∃ s1 t1, Do OK (Initialize ⟨bob, secret⟩)
          ⟨[⟨5, []⟩] ++ ⟨7, []⟩ :: ([⟨1, [0x01]⟩] ++ ⟨-101, []⟩ :: []), []⟩
        = some ((⟨-101, []⟩ : Reply).rv, s1, t1) ∧
      s1.next_state_ = STATE_BAD ∧ s1.buffer_ = delivered [⟨1, [0x01]⟩] ∧ t1.replies = [] ∧
      t1.log.getLast? = some (EndEventWithNetErrorCode SOCKS5_AUTH_READ 0)) :=
  ⟨C6_negative_result_aborts.1 (-101) _ _ (by decide) rfl,
   C6_negative_result_aborts.2.1 (-101) _ _ (by decide) rfl,
   C6_negative_result_aborts.2.2.1 bob secret [⟨5, []⟩] [] ⟨-101, []⟩
     (by decide) (by decide) (by decide) (by decide) (by decide),
   C6_negative_result_aborts.2.2.2 bob secret [⟨5, []⟩] [⟨1, [0x01]⟩] [] ⟨7, []⟩ ⟨-101, []⟩
     (by decide) (by decide) (by decide) (by decide) (by decide) (by decide) (by decide)
     (by decide) (by decide)⟩

/-! ## After the end -/

theorem step_ret_bad (rv r : Int) (s s1 : State) (t t1 : ClientSocketHandle)
    (h : step rv s t = (ret r, s1, t1)) : s1.next_state_ = STATE_BAD := by
  obtain ⟨auth, st, buf, left, io⟩ := s
  cases st <;> simp only [step] at h
  · cases h
  · cases h
  · split at h
    · cases h; rfl
    · cases h
  · cases h
  · cases h
  · split at h
    · cases h; rfl
    · cases h
  · split at h <;> (cases h; rfl)
  · cases h; rfl

theorem loopBody_terminalIsBad (c : Config) (h : terminalIsBad c) :
    terminalIsBad (loopBody c) := by
  cases c with
  | returned rv s t => exact h
  | running rv s t =>
    simp only [loopBody]
    rcases hs : step rv s t with ⟨f, s1, t1⟩
    cases f with
    | ret r =>
      intro _
      exact step_ret_bad rv r s s1 t t1 hs
    | brk r =>
      by_cases hr : r = ERR_IO_PENDING
      · simp only [hr, ne_eq, not_true_eq_false, if_false]
        intro hne
        exact absurd rfl hne
      · simp only [ne_eq, hr, not_false_eq_true, if_true]
        trivial

theorem DoIter_terminalIsBad (k : Nat) (c : Config) (h : terminalIsBad c) :
    terminalIsBad (DoIter k c) := by
  induction k with
  | zero => exact h
  | succ k ih => rw [DoIter_succ_last]; exact loopBody_terminalIsBad _ ih

/-- Whatever `Do` returns other than `ERR_IO_PENDING`, the object is then in
`STATE_BAD`. -/
theorem Do_terminal_bad (rv r : Int) (s s1 : State) (t t1 : ClientSocketHandle)
    (h : Do rv s t = some (r, s1, t1)) (hr : r ≠ ERR_IO_PENDING) :
    s1.next_state_ = STATE_BAD := by
  obtain ⟨r2, s2, t2, hk, hDo⟩ := Do_total rv s t
  rw [hDo] at h
  cases h
  have hb := DoIter_terminalIsBad (iterations t) (running rv s t) trivial
  rw [hk] at hb
  exact hb hr

/-- A call of `Do` in `STATE_BAD` returns `ERR_UNEXPECTED` and changes
nothing. -/
theorem Do_bad (rv : Int) (s : State) (t : ClientSocketHandle)
    (h : s.next_state_ = STATE_BAD) : Do rv s t = some (ERR_UNEXPECTED, s, t) :=
  Do_of_DoIter (k := 1) (loopBody_ret (step_bad rv s t h))

/-- C7: every call of `Do` returns, and when the result of a call is a
terminal one (anything but `ERR_IO_PENDING`), the object is in `STATE_BAD`;
every further call, whatever its argument and whatever the socket would
answer, returns `ERR_UNEXPECTED`, leaves the object as it is, uses no reply of
the socket and adds nothing to the log (no socket call, no validation of the
response again). -/
theorem C7_terminal_then_invalid_use :
    (∀ (rv : Int) (s : State) (t : ClientSocketHandle), ∃ r s1 t1, Do rv s t = some (r, s1, t1)) ∧
    (∀ (rv r : Int) (s s1 : State) (t t1 : ClientSocketHandle),
      Do rv s t = some (r, s1, t1) → r ≠ ERR_IO_PENDING →
      s1.next_state_ = STATE_BAD ∧
      ∀ (rv2 : Int) (t2 : ClientSocketHandle), Do rv2 s1 t2 = some (ERR_UNEXPECTED, s1, t2)) := by
  refine ⟨?_, ?_⟩
  · intro rv s t
    obtain ⟨r, s1, t1, _, h⟩ := Do_total rv s t
    exact ⟨r, s1, t1, h⟩
  · intro rv r s s1 t t1 h hr
    have hb := Do_terminal_bad rv r s s1 t t1 h hr
    exact ⟨hb, fun rv2 t2 => Do_bad rv2 s1 t2 hb⟩

/-- C7 after the successful exchange for "bob" / "secret". -/
theorem C7_terminal_then_invalid_use_witness :
    (⟨⟨bob, secret⟩, STATE_BAD, [0x01, 0x00], 0, [0x01, 0x00]⟩ : State).next_state_ = STATE_BAD ∧
    ∀ (rv2 : Int) (t2 : ClientSocketHandle),
      Do rv2 ⟨⟨bob, secret⟩, STATE_BAD, [0x01, 0x00], 0, [0x01, 0x00]⟩ t2
        = some (ERR_UNEXPECTED, ⟨⟨bob, secret⟩, STATE_BAD, [0x01, 0x00], 0, [0x01, 0x00]⟩, t2) :=
  C7_terminal_then_invalid_use.2 OK OK (Initialize ⟨bob, secret⟩)
    ⟨⟨bob, secret⟩, STATE_BAD, [0x01, 0x00], 0, [0x01, 0x00]⟩
    ⟨[⟨12, []⟩, ⟨2, [0x01, 0x00]⟩], []⟩
    ⟨[], [BeginEvent SOCKS5_AUTH_WRITE,
        Write [0x01, 0x03, 0x62, 0x6F, 0x62, 0x06, 0x73, 0x65, 0x63, 0x72, 0x65, 0x74] 12,
        EndEventWithNetErrorCode SOCKS5_AUTH_WRITE 12,
        BeginEvent SOCKS5_AUTH_READ, Read 2,
        EndEventWithNetErrorCode SOCKS5_AUTH_READ 2]⟩
    (by decide) (by decide)

/-! ## Pending operations -/

/-- A write that reports pending ends the call at once. -/
theorem loopBody_write_pending (rv : Int) (s : State) (t : ClientSocketHandle)
    (hs : s.next_state_ = STATE_WRITE) (hp : (nextReply t).1.rv = ERR_IO_PENDING) :
    loopBody (running rv s t) = returned ERR_IO_PENDING
      { s with iobuf_ :=
                 (s.buffer_.drop (size_sub s.buffer_.length s.buffer_left_)).take s.buffer_left_,
               next_state_ := STATE_WRITE_COMPLETE }
      { replies := (nextReply t).2,
        log := t.log ++ [BeginEvent SOCKS5_AUTH_WRITE,
          Write ((s.buffer_.drop (size_sub s.buffer_.length s.buffer_left_)).take s.buffer_left_)
            s.buffer_left_] } := by
  have h := step_write rv s t hs
  rw [hp] at h
  exact loopBody_pending h

/-- A read that reports pending ends the call at once. -/
theorem loopBody_read_pending (rv : Int) (s : State) (t : ClientSocketHandle)
    (hs : s.next_state_ = STATE_READ) (hp : (nextReply t).1.rv = ERR_IO_PENDING) :
    loopBody (running rv s t) = returned ERR_IO_PENDING
      { s with iobuf_ := store (IOBuffer s.buffer_left_) (nextReply t).1.data,
               next_state_ := STATE_READ_COMPLETE }
      { replies := (nextReply t).2,
        log := t.log ++ [BeginEvent SOCKS5_AUTH_READ, Read s.buffer_left_] } := by
  have h := step_read rv s t hs
  rw [hp] at h
  exact loopBody_pending h

theorem loopBody_pendingOnlyAfterCall (log0 : List Event) (c : Config)
    (h : pendingOnlyAfterCall log0 c) : pendingOnlyAfterCall log0 (loopBody c) := by
  cases c with
  | returned rv s t => exact h
  | running rv s t =>
    obtain ⟨hrv, hlog⟩ := h
    rcases hst : s.next_state_ with _ | _ | _ | _ | _ | _ | _ | _
    · rw [loopBody_init_write rv s t hst]
      exact ⟨OK_ne_pending, hlog⟩
    · by_cases hp : (nextReply t).1.rv = ERR_IO_PENDING
      · rw [loopBody_write_pending rv s t hst hp]
        intro _
        refine ⟨Or.inl rfl, t.log ++ [BeginEvent SOCKS5_AUTH_WRITE],
          Write ((s.buffer_.drop (size_sub s.buffer_.length s.buffer_left_)).take s.buffer_left_)
            s.buffer_left_, ?_, ?_, rfl⟩
        · simp
        · exact hlog.trans (List.prefix_append _ _)
      · rw [loopBody_brk (step_write rv s t hst) hp]
        exact ⟨hp, hlog.trans (List.prefix_append _ _)⟩
    · by_cases hneg : rv < 0
      · rw [loopBody_ret (step_write_complete_neg rv s t hst hneg)]
        intro hk
        exact absurd hk hrv
      · rw [loopBody_brk (step_write_complete rv s t hst (Int.not_lt.mp hneg)) OK_ne_pending]
        exact ⟨OK_ne_pending, hlog.trans (List.prefix_append _ _)⟩
    · rw [loopBody_brk (step_init_read rv s t hst) OK_ne_pending]
      exact ⟨OK_ne_pending, hlog⟩
    · by_cases hp : (nextReply t).1.rv = ERR_IO_PENDING
      · rw [loopBody_read_pending rv s t hst hp]
        intro _
        refine ⟨Or.inr rfl, t.log ++ [BeginEvent SOCKS5_AUTH_READ], Read s.buffer_left_,
          ?_, ?_, rfl⟩
        · simp
        · exact hlog.trans (List.prefix_append _ _)
      · rw [loopBody_brk (step_read rv s t hst) hp]
        exact ⟨hp, hlog.trans (List.prefix_append _ _)⟩
    · by_cases hneg : rv < 0
      · rw [loopBody_ret (step_read_complete_neg rv s t hst hneg)]
        intro hk
        exact absurd hk hrv
      · rw [loopBody_brk (step_read_complete rv s t hst (Int.not_lt.mp hneg)) OK_ne_pending]
        exact ⟨OK_ne_pending, hlog.trans (List.prefix_append _ _)⟩
    · rw [loopBody_ret (step_done rv s t hst)]
      intro hk
      exfalso
      split_ifs at hk <;> revert hk <;> decide
    · rw [loopBody_ret (step_bad rv s t hst)]
      intro hk
      exact absurd hk (by decide)

theorem DoIter_pendingOnlyAfterCall (log0 : List Event) (k : Nat) (c : Config)
    (h : pendingOnlyAfterCall log0 c) : pendingOnlyAfterCall log0 (DoIter k c) := by
  induction k with
  | zero => exact h
  | succ k ih => rw [DoIter_succ_last]; exact loopBody_pendingOnlyAfterCall log0 _ ih

/-- A call whose argument is not `ERR_IO_PENDING` returns `ERR_IO_PENDING`
only right after a socket call of its own. -/
theorem Do_pending_after_call (rv : Int) (s s1 : State) (t t1 : ClientSocketHandle)
    (hrv : rv ≠ ERR_IO_PENDING) (h : Do rv s t = some (ERR_IO_PENDING, s1, t1)) :
    (s1.next_state_ = STATE_WRITE_COMPLETE ∨ s1.next_state_ = STATE_READ_COMPLETE) ∧
    ∃ pre op, t1.log = pre ++ [op] ∧ t.log <+: pre ∧ op.isSocketCall = true := by
  obtain ⟨r2, s2, t2, hk, hDo⟩ := Do_total rv s t
  rw [hDo] at h
  cases h
  have hb := DoIter_pendingOnlyAfterCall t.log (iterations t) (running rv s t)
    ⟨hrv, List.prefix_refl _⟩
  rw [hk] at hb
  exact hb rfl

/-- C8: at most one socket call is outstanding.  When a write or a read
reports pending (`ERR_IO_PENDING`, or nothing scripted), that iteration is the
last of the call: `Do` returns `ERR_IO_PENDING`, the socket call is the last
entry of the log and the object waits in the matching `..._COMPLETE` state, so
that the next socket call can only be made by a later call of `Do`, the one
that carries the completion result of the pending call.  Conversely, a call
of `Do` that carries a completion result (a byte count or a net error, never
`ERR_IO_PENDING` itself) or the initial `OK` returns `ERR_IO_PENDING` only in
that way: the last entry of the log is a socket call made during this call and
the object is in a `..._COMPLETE` state. -/
theorem C8_pending_only_after_own_call :
    (∀ (rv : Int) (s : State) (t : ClientSocketHandle),
      s.next_state_ = STATE_WRITE → (nextReply t).1.rv = ERR_IO_PENDING →
      ∃ s1 buf, loopBody (running rv s t) = returned ERR_IO_PENDING s1
          ⟨(nextReply t).2, t.log ++ [BeginEvent SOCKS5_AUTH_WRITE, Write buf s.buffer_left_]⟩ ∧
        Do rv s t = some (ERR_IO_PENDING, s1,
          ⟨(nextReply t).2, t.log ++ [BeginEvent SOCKS5_AUTH_WRITE, Write buf s.buffer_left_]⟩) ∧
        s1.next_state_ = STATE_WRITE_COMPLETE) ∧
    (∀ (rv : Int) (s : State) (t : ClientSocketHandle),
      s.next_state_ = STATE_READ → (nextReply t).1.rv = ERR_IO_PENDING →
      ∃ s1, loopBody (running rv s t) = returned ERR_IO_PENDING s1
          ⟨(nextReply t).2, t.log ++ [BeginEvent SOCKS5_AUTH_READ, Read s.buffer_left_]⟩ ∧
        Do rv s t = some (ERR_IO_PENDING, s1,
          ⟨(nextReply t).2, t.log ++ [BeginEvent SOCKS5_AUTH_READ, Read s.buffer_left_]⟩) ∧
        s1.next_state_ = STATE_READ_COMPLETE) ∧
    (∀ (rv : Int) (s s1 : State) (t t1 : ClientSocketHandle),
      rv ≠ ERR_IO_PENDING → Do rv s t = some (ERR_IO_PENDING, s1, t1) →
      (s1.next_state_ = STATE_WRITE_COMPLETE ∨ s1.next_state_ = STATE_READ_COMPLETE) ∧
      ∃ pre op, t1.log = pre ++ [op] ∧ t.log <+: pre ∧ op.isSocketCall = true) := by
  refine ⟨?_, ?_, ?_⟩
  · intro rv s t hs hp
    have h := loopBody_write_pending rv s t hs hp
    exact ⟨_, _, h, Do_of_DoIter (k := 1) h, rfl⟩
  · intro rv s t hs hp
    have h := loopBody_read_pending rv s t hs hp
    exact ⟨_, h, Do_of_DoIter (k := 1) h, rfl⟩
  · intro rv s s1 t t1 hrv h
    exact Do_pending_after_call rv s s1 t t1 hrv h

/-- C8 for "bob" / "secret" and a socket that leaves every call
pending: the write issued from `STATE_WRITE`, the read issued from
`STATE_READ`, and the first call `Do(OK)`. -/
theorem C8_pending_only_after_own_call_witness :
    (∃ s1 buf, loopBody (running OK ⟨⟨bob, secret⟩, STATE_WRITE, request ⟨bob, secret⟩, 12, []⟩
          ⟨[], []⟩) = returned ERR_IO_PENDING s1
          ⟨(nextReply ⟨[], []⟩).2, [] ++ [BeginEvent SOCKS5_AUTH_WRITE, Write buf 12]⟩ ∧
        Do OK ⟨⟨bob, secret⟩, STATE_WRITE, request ⟨bob, secret⟩, 12, []⟩ ⟨[], []⟩
          = some (ERR_IO_PENDING, s1,
            ⟨(nextReply ⟨[], []⟩).2, [] ++ [BeginEvent SOCKS5_AUTH_WRITE, Write buf 12]⟩) ∧
        s1.next_state_ = STATE_WRITE_COMPLETE) ∧
    (∃ s1, loopBody (running OK ⟨⟨bob, secret⟩, STATE_READ, [], 2, [0, 0]⟩ ⟨[], []⟩)
          = returned ERR_IO_PENDING s1
            ⟨(nextReply ⟨[], []⟩).2, [] ++ [BeginEvent SOCKS5_AUTH_READ, Read 2]⟩ ∧
        Do OK ⟨⟨bob, secret⟩, STATE_READ, [], 2, [0, 0]⟩ ⟨[], []⟩
          = some (ERR_IO_PENDING, s1,
            ⟨(nextReply ⟨[], []⟩).2, [] ++ [BeginEvent SOCKS5_AUTH_READ, Read 2]⟩) ∧
        s1.next_state_ = STATE_READ_COMPLETE) ∧
    ((writePending.next_state_ = STATE_WRITE_COMPLETE ∨
        writePending.next_state_ = STATE_READ_COMPLETE) ∧
      ∃ pre op, writePendingSocket.log = pre ++ [op] ∧ ([] : List Event) <+: pre ∧
        op.isSocketCall = true) :=
  ⟨C8_pending_only_after_own_call.1 OK
      ⟨⟨bob, secret⟩, STATE_WRITE, request ⟨bob, secret⟩, 12, []⟩ ⟨[], []⟩ rfl rfl,
   C8_pending_only_after_own_call.2.1 OK ⟨⟨bob, secret⟩, STATE_READ, [], 2, [0, 0]⟩ ⟨[], []⟩
      rfl rfl,
   C8_pending_only_after_own_call.2.2 OK (Initialize ⟨bob, secret⟩) writePending ⟨[], []⟩
      writePendingSocket (by decide) (by decide)⟩

/-! ## The end events -/

/-- C9 (the code at the failing inputs): for "bob" / "secret", a first write
that fails with -101 is logged with the end event code 0, a read that fails
with -101 after the request has been written is logged with the end event
code 0, and a write that completes with 12 bytes is logged with the end event
code 12: the end event carries `std::max(rv, 0)`, never the negative code. -/
theorem C9_end_event_carries_max :
    Do OK (Initialize ⟨bob, secret⟩) ⟨[⟨-101, []⟩], []⟩ = some (-101,
      ⟨⟨bob, secret⟩, STATE_BAD, request ⟨bob, secret⟩, 12, request ⟨bob, secret⟩⟩,
      ⟨[], [BeginEvent SOCKS5_AUTH_WRITE, Write (request ⟨bob, secret⟩) 12,
            EndEventWithNetErrorCode SOCKS5_AUTH_WRITE 0]⟩) ∧
    Do OK (Initialize ⟨bob, secret⟩) ⟨[⟨12, []⟩, ⟨-101, []⟩], []⟩ = some (-101,
      ⟨⟨bob, secret⟩, STATE_BAD, [], 2, [0, 0]⟩,
      ⟨[], [BeginEvent SOCKS5_AUTH_WRITE, Write (request ⟨bob, secret⟩) 12,
            EndEventWithNetErrorCode SOCKS5_AUTH_WRITE 12,
            BeginEvent SOCKS5_AUTH_READ, Read 2,
            EndEventWithNetErrorCode SOCKS5_AUTH_READ 0]⟩) := by
  constructor <;> decide

/-! ## What the writes offer -/

theorem writesOf_writeLog_cons (b : List Byte) (left : Nat) (r : Reply) (rs : List Reply) :
    writesOf (writeLog b left (r :: rs))
      = (b.drop (b.length - left), left) :: writesOf (writeLog b (left - r.rv.toNat) rs) := rfl

theorem sent_cons (w : List Byte × Nat) (ws : List (List Byte × Nat)) (n : Nat) (ns : List Nat) :
    sent (w :: ws) (n :: ns) = w.1.take n ++ sent ws ns := by
  simp [sent]

theorem sent_writeLog (b : List Byte) (ws : List Reply) :
    ∀ left, left ≤ b.length → inRange left ws = true →
      sent (writesOf (writeLog b left ws)) (counts ws)
        = (b.drop (b.length - left)).take (total ws) := by
  induction ws with
  | nil => intro left _ _; simp [sent, writeLog, writesOf, counts, total]
  | cons r ws ih =>
    intro left hl hr
    obtain ⟨_, h1, h2⟩ := inRange_cons hr
    have hih := ih (left - r.rv.toNat) (by omega) h2
    have hd : b.length - (left - r.rv.toNat) = (b.length - left) + r.rv.toNat := by omega
    rw [hd] at hih
    have hc : counts (r :: ws) = r.rv.toNat :: counts ws := rfl
    rw [writesOf_writeLog_cons, hc, sent_cons, hih, total_cons, List.take_add, List.drop_drop]

/-- The write issued from `STATE_WRITE` offers the last `buffer_left_` bytes
of `buffer_`. -/
theorem write_offers_tail (rv : Int) (s : State) (t : ClientSocketHandle)
    (hs : s.next_state_ = STATE_WRITE) (hl : s.buffer_left_ ≤ s.buffer_.length)
    (hb : s.buffer_.length < SIZE_MOD) :
    (step rv s t).2.2.log = t.log ++ [BeginEvent SOCKS5_AUTH_WRITE,
        Write (s.buffer_.drop (s.buffer_.length - s.buffer_left_)) s.buffer_left_] ∧
    (s.buffer_.drop (s.buffer_.length - s.buffer_left_)).length = s.buffer_left_ := by
  constructor
  · rw [step_write rv s t hs]
    simp only [offered_tail _ _ hl hb]
  · rw [List.length_drop]
    omega

/-- The bytes taken by the socket over a write phase that accounts for the
whole buffer are the buffer. -/
theorem sent_complete (b : List Byte) (ws : List Reply)
    (hr : inRange b.length ws = true) (hsum : total ws = b.length) :
    sent (writesOf (writeLog b b.length ws)) (counts ws) = b := by
  rw [sent_writeLog b ws b.length (Nat.le_refl _) hr, hsum, Nat.sub_self, List.drop_zero,
    List.take_length]

/-- C10: a write issued from `STATE_WRITE` offers exactly the last
`buffer_left_` bytes of `buffer_`, with length argument `buffer_left_`.
Hence, for credentials of at most 255 bytes and write completions with counts
between 0 and the bytes still unwritten that add up to the request length,
when the object reaches `STATE_INIT_READ` the first `n_i` bytes of the `i`-th
offered buffer, put one after the other over all the writes, are exactly the
request `[0x01, ulen] ++ username ++ [plen] ++ password`. -/
theorem C10_writes_offer_unwritten_tail :
    (∀ (rv : Int) (s : State) (t : ClientSocketHandle),
      s.next_state_ = STATE_WRITE → s.buffer_left_ ≤ s.buffer_.length →
      s.buffer_.length < SIZE_MOD →
      (step rv s t).2.2.log = t.log ++ [BeginEvent SOCKS5_AUTH_WRITE,
          Write (s.buffer_.drop (s.buffer_.length - s.buffer_left_)) s.buffer_left_] ∧
      (s.buffer_.drop (s.buffer_.length - s.buffer_left_)).length = s.buffer_left_) ∧
    (∀ (u p : List Byte) (ws rest : List Reply) (r : Reply),
      u.length ≤ 255 → p.length ≤ 255 →
      inRange (3 + u.length + p.length) (ws ++ [r]) = true →
      total ws < 3 + u.length + p.length →
      total (ws ++ [r]) = 3 + u.length + p.length →
      ∃ rv1 s1 t1,
        DoIter (2 * ws.length + 3) (running OK (Initialize ⟨u, p⟩) ⟨ws ++ r :: rest, []⟩)
          = running rv1 s1 t1 ∧
        s1.next_state_ = STATE_INIT_READ ∧
        (writesOf t1.log).length = ws.length + 1 ∧
        readsOf t1.log = [] ∧
        sent (writesOf t1.log) (counts (ws ++ [r])) = request ⟨u, p⟩ ∧
        (sent (writesOf t1.log) (counts (ws ++ [r]))).map Fin.val
          = [0x01, u.length] ++ u.map Fin.val ++ [p.length] ++ p.map Fin.val) := by
  refine ⟨?_, ?_⟩
  · intro rv s t hs hl hb
    exact write_offers_tail rv s t hs hl hb
  · intro u p ws rest r hu hp hr ht hsum
    have hsize : (request ⟨u, p⟩).length < SIZE_MOD := by
      rw [request_length3]; unfold SIZE_MOD; omega
    rw [← request_length3 u p] at hr ht hsum
    obtain ⟨_, io, h2⟩ := fresh_write_phase_last ⟨u, p⟩ ws rest r hsize hr ht hsum
    have hs := sent_complete (request ⟨u, p⟩) (ws ++ [r]) hr hsum
    refine ⟨_, _, _, h2, rfl, ?_, readsOf_writeLog _ _ _, hs, ?_⟩
    · simp [writesOf_writeLog_length]
    · simp only []
      rw [hs]
      simp [request, narrow_val _ hu, narrow_val _ hp]

/-- C10 for "bob" / "secret": the write from `STATE_WRITE` with 7 bytes left,
and the request written in pieces of 5 and 7 bytes. -/
theorem C10_writes_offer_unwritten_tail_witness :
    ((step OK ⟨⟨bob, secret⟩, STATE_WRITE, request ⟨bob, secret⟩, 7, []⟩ ⟨[], []⟩).2.2.log
        = [] ++ [BeginEvent SOCKS5_AUTH_WRITE,
          Write ((request ⟨bob, secret⟩).drop ((request ⟨bob, secret⟩).length - 7)) 7] ∧
      ((request ⟨bob, secret⟩).drop ((request ⟨bob, secret⟩).length - 7)).length = 7) ∧
    (∃ rv1 s1 t1,
      DoIter (2 * [(⟨5, []⟩ : Reply)].length + 3)
          (running OK (Initialize ⟨bob, secret⟩) ⟨[⟨5, []⟩] ++ ⟨7, []⟩ :: [], []⟩)
        = running rv1 s1 t1 ∧
      s1.next_state_ = STATE_INIT_READ ∧
      (writesOf t1.log).length = [(⟨5, []⟩ : Reply)].length + 1 ∧
      readsOf t1.log = [] ∧
      sent (writesOf t1.log) (counts ([⟨5, []⟩] ++ [⟨7, []⟩])) = request ⟨bob, secret⟩ ∧
      (sent (writesOf t1.log) (counts ([⟨5, []⟩] ++ [⟨7, []⟩]))).map Fin.val
        = [0x01, bob.length] ++ bob.map Fin.val ++ [secret.length] ++ secret.map Fin.val) :=
  ⟨C10_writes_offer_unwritten_tail.1 OK
      ⟨⟨bob, secret⟩, STATE_WRITE, request ⟨bob, secret⟩, 7, []⟩ ⟨[], []⟩
      rfl (by decide) (by decide),
   C10_writes_offer_unwritten_tail.2 bob secret [⟨5, []⟩] [] ⟨7, []⟩
      (by decide) (by decide) (by decide) (by decide) (by decide)⟩

/-! ## The read phase does not depend on the chunks -/

theorem readsOf_readLog (rs : List Reply) :
    ∀ left, readsOf (readLog left rs) = outstanding left rs := by
  induction rs with
  | nil => intro left; rfl
  | cons r rs ih => intro left; simp [readLog, readsOf, outstanding, ih]

theorem delivered_length (rs : List Reply) (hd : dataMatches rs = true) :
    (delivered rs).length = total rs := by
  induction rs with
  | nil => rfl
  | cons r rs ih =>
    obtain ⟨h1, h2⟩ := dataMatches_cons hd
    rw [delivered_cons, List.length_append, total_cons, ih h2, h1]

/-- A fresh object whose writes account for the request and whose reads
deliver all the missing bytes is in `STATE_DONE` with the delivered bytes in
`buffer_`. -/
theorem fresh_to_done (auth : SOCKSAuthUsernamePassword) (ws rs rest : List Reply) (w r : Reply)
    (hsize : (request auth).length < SIZE_MOD)
    (hw : inRange (request auth).length (ws ++ [w]) = true)
    (hwt : total ws < (request auth).length)
    (hwsum : total (ws ++ [w]) = (request auth).length)
    (hr : inRange 2 (rs ++ [r]) = true) (hd : dataMatches (rs ++ [r]) = true)
    (hrt : total rs < 2) (hrsum : total (rs ++ [r]) = 2) :
    ∃ io, DoIter (1 + (2 * ws.length + 2) + 1 + (2 * rs.length + 2))
        (running OK (Initialize auth) ⟨ws ++ w :: (rs ++ r :: rest), []⟩) =
      running OK ⟨auth, STATE_DONE, delivered (rs ++ [r]), 0, io⟩
        ⟨rest, writeLog (request auth) (request auth).length (ws ++ [w])
          ++ readLog 2 (rs ++ [r])⟩ := by
  obtain ⟨io2, h4⟩ := read_phase_complete auth rest rs r [] 2
    (IOBuffer kSOCKSAuthUsernamePasswordResponseLen) OK
    ([] ++ writeLog (request auth) (request auth).length (ws ++ [w]))
    (by decide) hr hd hrt hrsum
  refine ⟨io2, ?_⟩
  rw [DoIter_add, fresh_to_read auth ws _ w [] hsize hw hwt hwsum, h4]
  simp

/-- The read issued from `STATE_READ` asks for `buffer_left_` bytes. -/
theorem read_requests_left (rv : Int) (s : State) (t : ClientSocketHandle)
    (hs : s.next_state_ = STATE_READ) :
    (step rv s t).2.2.log = t.log ++ [BeginEvent SOCKS5_AUTH_READ, Read s.buffer_left_] := by
  rw [step_read rv s t hs]

theorem outstanding_length (rs : List Reply) :
    ∀ left, (outstanding left rs).length = rs.length := by
  induction rs with
  | nil => intro left; rfl
  | cons r rs ih => intro left; simp [outstanding, ih]

theorem outstanding_head (left : Nat) (rs : List Reply) (r : Reply) :
    (outstanding left (rs ++ [r])).head? = some left := by
  cases rs <;> rfl

/-- Two runs that differ only in how the two response bytes are cut into
reads return the same result and end with the same `buffer_`. -/
theorem Do_same_for_chunkings (auth : SOCKSAuthUsernamePassword)
    (ws rs rs2 rest : List Reply) (w r r2 : Reply)
    (hsize : (request auth).length < SIZE_MOD)
    (hw : inRange (request auth).length (ws ++ [w]) = true)
    (hwt : total ws < (request auth).length)
    (hwsum : total (ws ++ [w]) = (request auth).length)
    (hr : inRange 2 (rs ++ [r]) = true) (hd : dataMatches (rs ++ [r]) = true)
    (hrt : total rs < 2) (hrsum : total (rs ++ [r]) = 2)
    (hr2 : inRange 2 (rs2 ++ [r2]) = true) (hd2 : dataMatches (rs2 ++ [r2]) = true)
    (hrt2 : total rs2 < 2) (hrsum2 : total (rs2 ++ [r2]) = 2)
    (hsame : delivered (rs ++ [r]) = delivered (rs2 ++ [r2])) :
    ∃ res s1 t1 s2 t2,
      Do OK (Initialize auth) ⟨ws ++ w :: (rs ++ r :: rest), []⟩ = some (res, s1, t1) ∧
      Do OK (Initialize auth) ⟨ws ++ w :: (rs2 ++ r2 :: rest), []⟩ = some (res, s2, t2) ∧
      s1.buffer_ = delivered (rs ++ [r]) ∧ s2.buffer_ = delivered (rs ++ [r]) ∧
      s1.next_state_ = STATE_BAD ∧ s2.next_state_ = STATE_BAD := by
  have hlen : (delivered (rs ++ [r])).length = 2 := by rw [delivered_length _ hd, hrsum]
  obtain ⟨b0, b1, hb⟩ := List.length_eq_two.mp hlen
  obtain ⟨io1, h1⟩ := Do_full_run auth ws rs rest w r [] b0 b1 hsize hw hwt hwsum hr hd hrt
    hrsum hb
  obtain ⟨io2, h2⟩ := Do_full_run auth ws rs2 rest w r2 [] b0 b1 hsize hw hwt hwsum hr2 hd2
    hrt2 hrsum2 (by rw [← hsame, hb])
  exact ⟨_, _, _, _, _, h1, h2, hb.symm, hb.symm, rfl, rfl⟩

/-- C11: the read phase does not depend on how the response is cut into
reads.  Each `Read` asks for exactly `buffer_left_` bytes, 2 for the first
one and then what is still missing.  When the reads have delivered the two
bytes, `buffer_` in `STATE_DONE` is the chunks received, in order, and has
length 2.  Two runs whose reads deliver the same bytes in different chunks
return the same result; in particular two reads of one byte each give what one
read of two bytes gives. -/
theorem C11_read_phase_independent_of_chunking :
    (∀ (rv : Int) (s : State) (t : ClientSocketHandle), s.next_state_ = STATE_READ →
      (step rv s t).2.2.log = t.log ++ [BeginEvent SOCKS5_AUTH_READ, Read s.buffer_left_]) ∧
    (∀ (u p : List Byte) (ws rs rest : List Reply) (w r : Reply),
      3 + u.length + p.length < SIZE_MOD →
      inRange (3 + u.length + p.length) (ws ++ [w]) = true →
      total ws < 3 + u.length + p.length →
      total (ws ++ [w]) = 3 + u.length + p.length →
      inRange 2 (rs ++ [r]) = true → dataMatches (rs ++ [r]) = true →
      total rs < 2 → total (rs ++ [r]) = 2 →
      ∃ rv1 s1 t1,
        DoIter (1 + (2 * ws.length + 2) + 1 + (2 * rs.length + 2))
            (running OK (Initialize ⟨u, p⟩) ⟨ws ++ w :: (rs ++ r :: rest), []⟩)
          = running rv1 s1 t1 ∧
        s1.next_state_ = STATE_DONE ∧
        s1.buffer_ = delivered (rs ++ [r]) ∧ s1.buffer_.length = 2 ∧
        readsOf t1.log = outstanding 2 (rs ++ [r]) ∧
        (readsOf t1.log).head? = some 2 ∧
        (readsOf t1.log).length = rs.length + 1) ∧
    (∀ (u p : List Byte) (ws rs rs2 rest : List Reply) (w r r2 : Reply),
      3 + u.length + p.length < SIZE_MOD →
      inRange (3 + u.length + p.length) (ws ++ [w]) = true →
      total ws < 3 + u.length + p.length →
      total (ws ++ [w]) = 3 + u.length + p.length →
      inRange 2 (rs ++ [r]) = true → dataMatches (rs ++ [r]) = true →
      total rs < 2 → total (rs ++ [r]) = 2 →
      inRange 2 (rs2 ++ [r2]) = true → dataMatches (rs2 ++ [r2]) = true →
      total rs2 < 2 → total (rs2 ++ [r2]) = 2 →
      delivered (rs ++ [r]) = delivered (rs2 ++ [r2]) →
      ∃ res s1 t1 s2 t2,
        Do OK (Initialize ⟨u, p⟩) ⟨ws ++ w :: (rs ++ r :: rest), []⟩ = some (res, s1, t1) ∧
        Do OK (Initialize ⟨u, p⟩) ⟨ws ++ w :: (rs2 ++ r2 :: rest), []⟩ = some (res, s2, t2) ∧
        s1.buffer_ = delivered (rs ++ [r]) ∧ s2.buffer_ = delivered (rs ++ [r]) ∧
        s1.next_state_ = STATE_BAD ∧ s2.next_state_ = STATE_BAD) ∧
    (∀ (u p : List Byte) (ws rest : List Reply) (w : Reply) (b0 b1 : Byte),
      3 + u.length + p.length < SIZE_MOD →
      inRange (3 + u.length + p.length) (ws ++ [w]) = true →
      total ws < 3 + u.length + p.length →
      total (ws ++ [w]) = 3 + u.length + p.length →
      ∃ res s1 t1 s2 t2,
        Do OK (Initialize ⟨u, p⟩) ⟨ws ++ w :: ⟨1, [b0]⟩ :: ⟨1, [b1]⟩ :: rest, []⟩
          = some (res, s1, t1) ∧
        Do OK (Initialize ⟨u, p⟩) ⟨ws ++ w :: ⟨2, [b0, b1]⟩ :: rest, []⟩
          = some (res, s2, t2) ∧
        s1.buffer_ = [b0, b1] ∧ s2.buffer_ = [b0, b1]) := by
  refine ⟨?_, ?_, ?_, ?_⟩
  · intro rv s t hs
    exact read_requests_left rv s t hs
  · intro u p ws rs rest w r hsize hw hwt hwsum hr hd hrt hrsum
    rw [← request_length3 u p] at hsize hw hwt hwsum
    obtain ⟨io, h⟩ := fresh_to_done ⟨u, p⟩ ws rs rest w r hsize hw hwt hwsum hr hd hrt hrsum
    have hreads : readsOf (writeLog (request ⟨u, p⟩) (request ⟨u, p⟩).length (ws ++ [w])
        ++ readLog 2 (rs ++ [r])) = outstanding 2 (rs ++ [r]) := by
      rw [readsOf_append, readsOf_writeLog, readsOf_readLog, List.nil_append]
    refine ⟨_, _, _, h, rfl, rfl, ?_, hreads, ?_, ?_⟩
    · show (delivered (rs ++ [r])).length = 2
      rw [delivered_length _ hd, hrsum]
    · show (readsOf _).head? = some 2
      rw [hreads, outstanding_head]
    · show (readsOf _).length = rs.length + 1
      rw [hreads, outstanding_length, List.length_append]
      rfl
  · intro u p ws rs rs2 rest w r r2 hsize hw hwt hwsum hr hd hrt hrsum hr2 hd2 hrt2 hrsum2 hsame
    rw [← request_length3 u p] at hsize hw hwt hwsum
    exact Do_same_for_chunkings ⟨u, p⟩ ws rs rs2 rest w r r2 hsize hw hwt hwsum hr hd hrt hrsum
      hr2 hd2 hrt2 hrsum2 hsame
  · intro u p ws rest w b0 b1 hsize hw hwt hwsum
    rw [← request_length3 u p] at hsize hw hwt hwsum
    obtain ⟨res, s1, t1, s2, t2, h1, h2, e1, e2, _, _⟩ :=
      Do_same_for_chunkings ⟨u, p⟩ ws [⟨1, [b0]⟩] [] rest w ⟨1, [b1]⟩ ⟨2, [b0, b1]⟩
        hsize hw hwt hwsum rfl (by simp [dataMatches]) (by simp [total, counts])
        (by simp [total, counts]) rfl (by simp [dataMatches]) (by simp [total, counts])
        (by simp [total, counts]) (by simp [delivered])
    exact ⟨res, s1, t1, s2, t2, h1, h2, by rw [e1]; simp [delivered], by rw [e2]; simp [delivered]⟩

/-- C11 for "bob" / "secret", the request written in pieces of 5 and 7
bytes: the read issued with one byte missing, the response `01 00` read one
byte at a time, and the same response read in one piece. -/
theorem C11_read_phase_independent_of_chunking_witness :
    ((step OK ⟨⟨bob, secret⟩, STATE_READ, [0x01], 1, [0x01, 0x00]⟩ ⟨[], []⟩).2.2.log
        = [] ++ [BeginEvent SOCKS5_AUTH_READ, Read 1]) ∧
    (∃ rv1 s1 t1,
      DoIter (1 + (2 * [(⟨5, []⟩ : Reply)].length + 2) + 1
            + (2 * [(⟨1, [0x01]⟩ : Reply)].length + 2))
          (running OK (Initialize ⟨bob, secret⟩)
            ⟨[⟨5, []⟩] ++ ⟨7, []⟩ :: ([⟨1, [0x01]⟩] ++ ⟨1, [0x00]⟩ :: []), []⟩)
        = running rv1 s1 t1 ∧
      s1.next_state_ = STATE_DONE ∧
      s1.buffer_ = delivered ([⟨1, [0x01]⟩] ++ [⟨1, [0x00]⟩]) ∧ s1.buffer_.length = 2 ∧
      readsOf t1.log = outstanding 2 ([⟨1, [0x01]⟩] ++ [⟨1, [0x00]⟩]) ∧
      (readsOf t1.log).head? = some 2 ∧
      (readsOf t1.log).length = [(⟨1, [0x01]⟩ : Reply)].length + 1) ∧
    (∃ res s1 t1 s2 t2,
      Do OK (Initialize ⟨bob, secret⟩)
          ⟨[⟨5, []⟩] ++ ⟨7, []⟩ :: ([⟨0, []⟩, ⟨1, [0x01]⟩] ++ ⟨1, [0x00]⟩ :: []), []⟩
        = some (res, s1, t1) ∧
      Do OK (Initialize ⟨bob, secret⟩)
          ⟨[⟨5, []⟩] ++ ⟨7, []⟩ :: ([] ++ ⟨2, [0x01, 0x00]⟩ :: []), []⟩
        = some (res, s2, t2) ∧
      s1.buffer_ = delivered ([⟨0, []⟩, ⟨1, [0x01]⟩] ++ [⟨1, [0x00]⟩]) ∧
      s2.buffer_ = delivered ([⟨0, []⟩, ⟨1, [0x01]⟩] ++ [⟨1, [0x00]⟩]) ∧
      s1.next_state_ = STATE_BAD ∧ s2.next_state_ = STATE_BAD) ∧
    (∃ res s1 t1 s2 t2,
      Do OK (Initialize ⟨bob, secret⟩)
          ⟨[⟨5, []⟩] ++ ⟨7, []⟩ :: ⟨1, [0x01]⟩ :: ⟨1, [0x00]⟩ :: [], []⟩
        = some (res, s1, t1) ∧
      Do OK (Initialize ⟨bob, secret⟩)
          ⟨[⟨5, []⟩] ++ ⟨7, []⟩ :: ⟨2, [0x01, 0x00]⟩ :: [], []⟩
        = some (res, s2, t2) ∧
      s1.buffer_ = [0x01, 0x00] ∧ s2.buffer_ = [0x01, 0x00]) :=
  ⟨C11_read_phase_independent_of_chunking.1 OK
      ⟨⟨bob, secret⟩, STATE_READ, [0x01], 1, [0x01, 0x00]⟩ ⟨[], []⟩ rfl,
   C11_read_phase_independent_of_chunking.2.1 bob secret [⟨5, []⟩] [⟨1, [0x01]⟩] []
      ⟨7, []⟩ ⟨1, [0x00]⟩ (by decide) (by decide) (by decide) (by decide) (by decide)
      (by decide) (by decide) (by decide),
   C11_read_phase_independent_of_chunking.2.2.1 bob secret [⟨5, []⟩]
      [⟨0, []⟩, ⟨1, [0x01]⟩] [] [] ⟨7, []⟩ ⟨1, [0x00]⟩ ⟨2, [0x01, 0x00]⟩
      (by decide) (by decide) (by decide) (by decide) (by decide) (by decide) (by decide)
      (by decide) (by decide) (by decide) (by decide) (by decide) (by decide),
   C11_read_phase_independent_of_chunking.2.2.2 bob secret [⟨5, []⟩] [] ⟨7, []⟩ 0x01 0x00
      (by decide) (by decide) (by decide) (by decide)⟩

/-! ## Results at once and results by notification -/

/-- An iteration that goes on does not change what the call returns. -/
theorem Do_step {rv rv1 : Int} {s s1 : State} {t t1 : ClientSocketHandle}
    (h : loopBody (running rv s t) = running rv1 s1 t1) : Do rv s t = Do rv1 s1 t1 := by
  obtain ⟨r, s2, t2, hk, hDo⟩ := Do_total rv1 s1 t1
  rw [hDo]
  apply Do_of_DoIter (k := iterations t1 + 1)
  rw [Nat.add_comm, DoIter_add, DoIter_one, h, hk]

/-- An iteration that returns gives the result of the call. -/
theorem Do_ret {rv r : Int} {s s1 : State} {t t1 : ClientSocketHandle}
    (h : loopBody (running rv s t) = returned r s1 t1) : Do rv s t = some (r, s1, t1) :=
  Do_of_DoIter (k := 1) h

theorem store_nil (buf : List Byte) : store buf [] = buf := by
  simp [store]

theorem waiting_bad (r : Int) (s : State) (h : s.next_state_ = STATE_BAD) :
    waiting r s = false := by
  simp [waiting, h]

theorem waiting_of_ne (r : Int) (s : State) (h : r ≠ ERR_IO_PENDING) :
    waiting r s = false := by
  simp [waiting, h]

/-- The iteration of `STATE_WRITE` when the socket returns a result at once. -/
theorem write_at_once (rv : Int) (s : State) (r : Reply) (rest : List Reply) (log : List Event)
    (hs : s.next_state_ = STATE_WRITE) (hp : r.rv ≠ ERR_IO_PENDING) :
    loopBody (running rv s ⟨r :: rest, log⟩) = running r.rv
      { s with iobuf_ :=
                 (s.buffer_.drop (size_sub s.buffer_.length s.buffer_left_)).take s.buffer_left_,
               next_state_ := STATE_WRITE_COMPLETE }
      ⟨rest, log ++ [BeginEvent SOCKS5_AUTH_WRITE,
        Write ((s.buffer_.drop (size_sub s.buffer_.length s.buffer_left_)).take s.buffer_left_)
          s.buffer_left_]⟩ := by
  rw [loopBody_brk (step_write _ _ _ hs) (by simpa [nextReply] using hp)]
  rfl

/-- The iteration of `STATE_WRITE` when nothing is scripted: the write is
pending. -/
theorem write_unscripted (rv : Int) (s : State) (log : List Event)
    (hs : s.next_state_ = STATE_WRITE) :
    loopBody (running rv s ⟨[], log⟩) = returned ERR_IO_PENDING
      { s with iobuf_ :=
                 (s.buffer_.drop (size_sub s.buffer_.length s.buffer_left_)).take s.buffer_left_,
               next_state_ := STATE_WRITE_COMPLETE }
      ⟨[], log ++ [BeginEvent SOCKS5_AUTH_WRITE,
        Write ((s.buffer_.drop (size_sub s.buffer_.length s.buffer_left_)).take s.buffer_left_)
          s.buffer_left_]⟩ := by
  rw [loopBody_write_pending rv s ⟨[], log⟩ hs rfl]
  rfl

/-- The iteration of `STATE_READ` when the socket returns a result at once. -/
theorem read_at_once (rv : Int) (s : State) (r : Reply) (rest : List Reply) (log : List Event)
    (hs : s.next_state_ = STATE_READ) (hp : r.rv ≠ ERR_IO_PENDING) :
    loopBody (running rv s ⟨r :: rest, log⟩) = running r.rv
      { s with iobuf_ := store (IOBuffer s.buffer_left_) r.data,
               next_state_ := STATE_READ_COMPLETE }
      ⟨rest, log ++ [BeginEvent SOCKS5_AUTH_READ, Read s.buffer_left_]⟩ := by
  rw [loopBody_brk (step_read _ _ _ hs) (by simpa [nextReply] using hp)]
  rfl

/-- The iteration of `STATE_READ` when nothing is scripted: the read is
pending and the `IOBuffer` is as allocated. -/
theorem read_unscripted (rv : Int) (s : State) (log : List Event)
    (hs : s.next_state_ = STATE_READ) :
    loopBody (running rv s ⟨[], log⟩) = returned ERR_IO_PENDING
      { s with iobuf_ := IOBuffer s.buffer_left_, next_state_ := STATE_READ_COMPLETE }
      ⟨[], log ++ [BeginEvent SOCKS5_AUTH_READ, Read s.buffer_left_]⟩ := by
  rw [loopBody_read_pending rv s ⟨[], log⟩ hs rfl]
  simp only [nextReply, store_nil]

/-- A call with the socket script `pre ++ c :: rest` against the call with the
script `pre` alone.  If the latter ends waiting for a socket call, the former
goes on as the call that is notified of `c`; otherwise both return the same. -/
theorem Do_split (c : Reply) (rest : List Reply) (hc : c.rv ≠ ERR_IO_PENDING) :
    ∀ (n : Nat) (rv : Int) (s : State) (pre : List Reply) (log : List Event),
      weight (running rv s ⟨pre, log⟩) < n → (∀ p ∈ pre, p.rv ≠ ERR_IO_PENDING) →
      ∃ r1 s1 t1, Do rv s ⟨pre, log⟩ = some (r1, s1, t1) ∧
        (waiting r1 s1 = true →
          Do rv s ⟨pre ++ c :: rest, log⟩ = Do c.rv (notify c s1) ⟨rest, t1.log⟩) ∧
        (waiting r1 s1 = false →
          Do rv s ⟨pre ++ c :: rest, log⟩
            = some (r1, s1, ⟨t1.replies ++ c :: rest, t1.log⟩)) := by
  intro n
  induction n with
  | zero => intro rv s pre log hw; exact absurd hw (Nat.not_lt_zero _)
  | succ n ih =>
    intro rv s pre log hw hpre
    simp only [weight] at hw
    rcases hst : s.next_state_ with _ | _ | _ | _ | _ | _ | _ | _
    · rw [Do_step (loopBody_init_write rv s ⟨pre, log⟩ hst),
        Do_step (loopBody_init_write rv s ⟨pre ++ c :: rest, log⟩ hst)]
      apply ih _ _ _ _ _ hpre
      simp only [weight, rank]
      rw [hst] at hw
      simp only [rank] at hw
      omega
    · cases pre with
      | nil =>
        refine ⟨_, _, _, Do_ret (write_unscripted rv s log hst), ?_, ?_⟩
        · intro _
          rw [List.nil_append, Do_step (write_at_once rv s c rest log hst hc)]
          rfl
        · intro hwait
          simp [waiting] at hwait
      | cons p pre =>
        have hp : p.rv ≠ ERR_IO_PENDING := hpre p (List.mem_cons_self _ _)
        rw [Do_step (write_at_once rv s p pre log hst hp), List.cons_append,
          Do_step (write_at_once rv s p (pre ++ c :: rest) log hst hp)]
        apply ih _ _ _ _ _ (fun q hq => hpre q (List.mem_cons_of_mem _ hq))
        simp only [weight, rank]
        rw [hst] at hw
        simp only [rank, List.length_cons] at hw
        omega
    · by_cases hneg : rv < 0
      · refine ⟨_, _, _, Do_ret (loopBody_ret (step_write_complete_neg rv s _ hst hneg)), ?_, ?_⟩
        · intro hwait
          rw [waiting_bad _ _ rfl] at hwait
          exact absurd hwait (by decide)
        · intro _
          exact Do_ret (loopBody_ret (step_write_complete_neg rv s _ hst hneg))
      · have h0 : 0 ≤ rv := Int.not_lt.mp hneg
        rw [Do_step (loopBody_brk (step_write_complete rv s ⟨pre, log⟩ hst h0) OK_ne_pending),
          Do_step (loopBody_brk (step_write_complete rv s ⟨pre ++ c :: rest, log⟩ hst h0)
            OK_ne_pending)]
        apply ih _ _ _ _ _ hpre
        simp only [weight]
        rw [hst] at hw
        simp only [rank] at hw
        split_ifs <;> simp only [rank] <;> omega
    · rw [Do_step (loopBody_brk (step_init_read rv s ⟨pre, log⟩ hst) OK_ne_pending),
        Do_step (loopBody_brk (step_init_read rv s ⟨pre ++ c :: rest, log⟩ hst) OK_ne_pending)]
      apply ih _ _ _ _ _ hpre
      simp only [weight, rank]
      rw [hst] at hw
      simp only [rank] at hw
      omega
    · cases pre with
      | nil =>
        refine ⟨_, _, _, Do_ret (read_unscripted rv s log hst), ?_, ?_⟩
        · intro _
          rw [List.nil_append, Do_step (read_at_once rv s c rest log hst hc)]
          simp [notify, IOBuffer, store]
        · intro hwait
          simp [waiting] at hwait
      | cons p pre =>
        have hp : p.rv ≠ ERR_IO_PENDING := hpre p (List.mem_cons_self _ _)
        rw [Do_step (read_at_once rv s p pre log hst hp), List.cons_append,
          Do_step (read_at_once rv s p (pre ++ c :: rest) log hst hp)]
        apply ih _ _ _ _ _ (fun q hq => hpre q (List.mem_cons_of_mem _ hq))
        simp only [weight, rank]
        rw [hst] at hw
        simp only [rank, List.length_cons] at hw
        omega
    · by_cases hneg : rv < 0
      · refine ⟨_, _, _, Do_ret (loopBody_ret (step_read_complete_neg rv s _ hst hneg)), ?_, ?_⟩
        · intro hwait
          rw [waiting_bad _ _ rfl] at hwait
          exact absurd hwait (by decide)
        · intro _
          exact Do_ret (loopBody_ret (step_read_complete_neg rv s _ hst hneg))
      · have h0 : 0 ≤ rv := Int.not_lt.mp hneg
        rw [Do_step (loopBody_brk (step_read_complete rv s ⟨pre, log⟩ hst h0) OK_ne_pending),
          Do_step (loopBody_brk (step_read_complete rv s ⟨pre ++ c :: rest, log⟩ hst h0)
            OK_ne_pending)]
        apply ih _ _ _ _ _ hpre
        simp only [weight]
        rw [hst] at hw
        simp only [rank] at hw
        split_ifs <;> simp only [rank] <;> omega
    · refine ⟨_, _, _, Do_ret (loopBody_ret (step_done rv s _ hst)), ?_, ?_⟩
      · intro hwait
        rw [waiting_bad _ _ rfl] at hwait
        exact absurd hwait (by decide)
      · intro _
        exact Do_ret (loopBody_ret (step_done rv s _ hst))
    · refine ⟨_, _, _, Do_ret (loopBody_ret (step_bad rv s _ hst)), ?_, ?_⟩
      · intro hwait
        rw [waiting_bad _ _ hst] at hwait
        exact absurd hwait (by decide)
      · intro _
        exact Do_ret (loopBody_ret (step_bad rv s _ hst))

theorem flat_length (segs : List (List Reply × Reply)) (tail : List Reply) :
    tail.length ≤ (flat segs tail).length := by
  induction segs with
  | nil => exact Nat.le_refl _
  | cons seg segs ih =>
    obtain ⟨pre, c⟩ := seg
    simp only [flat, List.length_append, List.length_cons]
    omega

theorem waiting_pending {r : Int} {s : State} (h : waiting r s = true) : r = ERR_IO_PENDING := by
  simp only [waiting, Bool.and_eq_true, decide_eq_true_eq] at h
  exact h.1

/-- A run in which some socket calls report pending and are notified later
returns what the run returns in which every call returns its result at once,
with the same object and the same log at the end; every notified call adds
one call of `Do` that returned `ERR_IO_PENDING`. -/
theorem drive_eq_Do (segs : List (List Reply × Reply)) (tail : List Reply) :
    ∀ (rv : Int) (s : State) (log : List Event),
      (∀ q ∈ flat segs tail, q.rv ≠ ERR_IO_PENDING) →
      ∃ r s1 rest log1 k,
        Do rv s ⟨flat segs tail, log⟩ = some (r, s1, ⟨rest, log1⟩) ∧
        drive segs tail rv s log = (List.replicate k ERR_IO_PENDING ++ [r], s1, log1) ∧
        k ≤ segs.length ∧ (rest.length ≤ tail.length → k = segs.length) := by
  induction segs with
  | nil =>
    intro rv s log _
    obtain ⟨r, s1, t1, _, hDo⟩ := Do_total rv s ⟨tail, log⟩
    refine ⟨r, s1, t1.replies, t1.log, 0, ?_, ?_, Nat.le_refl _, fun _ => rfl⟩
    · simpa [flat] using hDo
    · simp [drive, hDo]
  | cons seg segs ih =>
    intro rv s log hall
    obtain ⟨pre, c⟩ := seg
    have hc : c.rv ≠ ERR_IO_PENDING := hall c (by simp [flat])
    have hpre : ∀ q ∈ pre, q.rv ≠ ERR_IO_PENDING := fun q hq => hall q (by simp [flat, hq])
    have hrest : ∀ q ∈ flat segs tail, q.rv ≠ ERR_IO_PENDING :=
      fun q hq => hall q (by simp [flat, hq])
    obtain ⟨r1, s1, t1, h1, hyes, hno⟩ := Do_split c (flat segs tail) hc
      (weight (running rv s ⟨pre, log⟩) + 1) rv s pre log (Nat.lt_succ_self _) hpre
    by_cases hwait : waiting r1 s1 = true
    · obtain ⟨r, s2, rest, log2, k, hDo, hdrive, hk, hkeq⟩ := ih c.rv (notify c s1) t1.log hrest
      refine ⟨r, s2, rest, log2, k + 1, ?_, ?_, ?_, ?_⟩
      · show Do rv s ⟨pre ++ c :: flat segs tail, log⟩ = _
        rw [hyes hwait, hDo]
      · have hr1 := waiting_pending hwait
        subst hr1
        simp only [drive, h1, hwait, if_true, hdrive]
        rfl
      · simp only [List.length_cons]
        omega
      · intro hlen
        simp only [List.length_cons]
        rw [hkeq hlen]
    · have hwait2 : waiting r1 s1 = false := by simpa using hwait
      refine ⟨r1, s1, t1.replies ++ c :: flat segs tail, t1.log, 0, ?_, ?_, Nat.zero_le _, ?_⟩
      · show Do rv s ⟨pre ++ c :: flat segs tail, log⟩ = _
        exact hno hwait2
      · simp [drive, h1, hwait2]
      · intro hlen
        have := flat_length segs tail
        simp only [List.length_append, List.length_cons] at hlen
        omega

/-- C12: results returned at once and results notified later are equivalent.
Take any run, given as the results of its socket calls (none of them
`ERR_IO_PENDING`, which is not a result) and for each call whether it returns
its result at once or reports pending and is notified later.  The calls of
`Do` of that run end with the same result, the same object and the same log
(so the same socket calls with the same bytes and lengths, in the same order)
as the single call of `Do` in which every socket call returns its result at
once.  The values returned by the successive calls are `ERR_IO_PENDING` once
for each notified socket call, followed by the result. -/
theorem C12_at_once_or_notified (u p : List Byte) (segs : List (List Reply × Reply))
    (tail : List Reply) (hall : ∀ q ∈ flat segs tail, q.rv ≠ ERR_IO_PENDING) :
    ∃ r s1 rest log1 k,
      Do OK (Initialize ⟨u, p⟩) ⟨flat segs tail, []⟩ = some (r, s1, ⟨rest, log1⟩) ∧
      drive segs tail OK (Initialize ⟨u, p⟩) []
        = (List.replicate k ERR_IO_PENDING ++ [r], s1, log1) ∧
      k ≤ segs.length ∧ (rest.length ≤ tail.length → k = segs.length) :=
  drive_eq_Do segs tail OK (Initialize ⟨u, p⟩) [] hall

/-- C12 for "bob" / "secret": the first write takes 5 bytes at once, the
second is pending and completes with 7, the first read is pending and
completes with the byte `01`, the second read returns the byte `00` at
once. -/
theorem C12_at_once_or_notified_witness :
    ∃ r s1 rest log1 k,
      Do OK (Initialize ⟨bob, secret⟩)
          ⟨flat [([⟨5, []⟩], ⟨7, []⟩), ([], ⟨1, [0x01]⟩)] [⟨1, [0x00]⟩], []⟩
        = some (r, s1, ⟨rest, log1⟩) ∧
      drive [([⟨5, []⟩], ⟨7, []⟩), ([], ⟨1, [0x01]⟩)] [⟨1, [0x00]⟩] OK
          (Initialize ⟨bob, secret⟩) []
        = (List.replicate k ERR_IO_PENDING ++ [r], s1, log1) ∧
      k ≤ [(([⟨5, []⟩] : List Reply), (⟨7, []⟩ : Reply)), ([], ⟨1, [0x01]⟩)].length ∧
      (rest.length ≤ [(⟨1, [0x00]⟩ : Reply)].length →
        k = [(([⟨5, []⟩] : List Reply), (⟨7, []⟩ : Reply)), ([], ⟨1, [0x01]⟩)].length) :=
  C12_at_once_or_notified bob secret [([⟨5, []⟩], ⟨7, []⟩), ([], ⟨1, [0x01]⟩)] [⟨1, [0x00]⟩]
    (by decide)

/-! ## Completions of 0 bytes -/

theorem zeros_succ (n : Nat) : zeros (n + 1) = ⟨0, []⟩ :: zeros n := rfl

theorem zeros_length (n : Nat) : (zeros n).length = n := by
  simp [zeros]

theorem total_zeros (n : Nat) : total (zeros n) = 0 := by
  induction n with
  | zero => rfl
  | succ n ih => rw [zeros_succ, total_cons, ih]; rfl

theorem inRange_zeros (left n : Nat) : inRange left (zeros n) = true := by
  induction n with
  | zero => rfl
  | succ n ih =>
    rw [zeros_succ]
    simp only [inRange, Bool.and_eq_true, decide_eq_true_eq]
    exact ⟨⟨Int.le_refl _, Nat.zero_le _⟩, ih⟩

theorem dataMatches_zeros (n : Nat) : dataMatches (zeros n) = true := by
  simp [dataMatches, zeros]

theorem delivered_zeros (n : Nat) : delivered (zeros n) = [] := by
  induction n with
  | zero => rfl
  | succ n ih => rw [zeros_succ, delivered_cons, ih]; rfl

theorem writesOf_writeLog_zeros (b : List Byte) (left n : Nat) :
    writesOf (writeLog b left (zeros n)) = List.replicate n (b.drop (b.length - left), left) := by
  induction n with
  | zero => rfl
  | succ n ih =>
    rw [zeros_succ, writesOf_writeLog_cons, List.replicate_succ]
    simp only [Int.toNat_zero, Nat.sub_zero]
    rw [ih]

theorem outstanding_zeros (left n : Nat) :
    outstanding left (zeros n) = List.replicate n left := by
  induction n with
  | zero => rfl
  | succ n ih =>
    rw [zeros_succ, List.replicate_succ]
    simp only [outstanding, Int.toNat_zero, Nat.sub_zero]
    rw [ih]

/-- A write that completes with 0 bytes: two iterations later the object is in
`STATE_WRITE` again with `buffer_` and `buffer_left_` as they were. -/
theorem write_zero (auth : SOCKSAuthUsernamePassword) (b io : List Byte) (left : Nat) (rv : Int)
    (r : Reply) (rest : List Reply) (log : List Event)
    (hpos : 0 < left) (hl : left ≤ b.length) (hb : b.length < SIZE_MOD) (hr : r.rv = 0) :
    DoIter 2 (running rv ⟨auth, STATE_WRITE, b, left, io⟩ ⟨r :: rest, log⟩) =
      running OK ⟨auth, STATE_WRITE, b, left, b.drop (b.length - left)⟩
        ⟨rest, log ++ [BeginEvent SOCKS5_AUTH_WRITE, Write (b.drop (b.length - left)) left,
          EndEventWithNetErrorCode SOCKS5_AUTH_WRITE 0]⟩ := by
  have h := write_round auth b io left rv r rest log hl hb (by rw [hr]) (by rw [hr]; exact Nat.zero_le _)
  rw [hr] at h
  simp only [Int.toNat_zero, Nat.sub_zero] at h
  rw [if_neg (by omega)] at h
  exact h

/-- A read that completes with 0 bytes: two iterations later the object is in
`STATE_READ` again with `buffer_` and `buffer_left_` as they were. -/
theorem read_zero (auth : SOCKSAuthUsernamePassword) (acc io : List Byte) (left : Nat) (rv : Int)
    (r : Reply) (rest : List Reply) (log : List Event)
    (hpos : 0 < left) (hb : left < SIZE_MOD) (hr : r.rv = 0) :
    DoIter 2 (running rv ⟨auth, STATE_READ, acc, left, io⟩ ⟨r :: rest, log⟩) =
      running OK ⟨auth, STATE_READ, acc, left, store (IOBuffer left) r.data⟩
        ⟨rest, log ++ [BeginEvent SOCKS5_AUTH_READ, Read left,
          EndEventWithNetErrorCode SOCKS5_AUTH_READ 0]⟩ := by
  have h0 : (0 : Int) ≤ r.rv := by rw [hr]
  rw [DoIter_succ, DoIter_succ, DoIter_zero]
  rw [loopBody_brk (step_read _ _ _ rfl) (by simpa [nextReply] using ne_pending_of_nonneg h0)]
  rw [loopBody_brk (step_read_complete _ _ _ rfl (by simpa [nextReply] using h0)) OK_ne_pending]
  simp only [nextReply, hr, Int.toNat_zero, List.take_zero, List.append_nil,
    size_sub_of_le (Nat.zero_le left) hb, Nat.sub_zero, max0_of_nonneg (Int.le_refl 0),
    List.append_assoc, List.cons_append, List.nil_append]
  rw [if_neg (by omega)]

theorem request_length_pos (auth : SOCKSAuthUsernamePassword) : 0 < (request auth).length := by
  rw [request_length]; omega

theorem writesOf_length_mono {xs ys : List Event} (h : xs <+: ys) :
    (writesOf xs).length ≤ (writesOf ys).length := by
  obtain ⟨zs, rfl⟩ := h
  rw [writesOf_append, List.length_append]
  exact Nat.le_add_right _ _

/-- After `n` writes that complete with 0 bytes, a fresh object issues one
more write, whatever the socket does next. -/
theorem zeros_then_write (auth : SOCKSAuthUsernamePassword) (n : Nat) (rest : List Reply)
    (hsize : (request auth).length < SIZE_MOD) :
    (DoIter (1 + 2 * n + 1) (running OK (Initialize auth) ⟨zeros n ++ rest, []⟩)).transport.log
      = writeLog (request auth) (request auth).length (zeros n)
          ++ [BeginEvent SOCKS5_AUTH_WRITE, Write (request auth) (request auth).length] := by
  obtain ⟨rv1, io1, h⟩ := write_phase_partial auth (request auth) rest (zeros n)
    (request auth).length [] OK [] (Nat.le_refl _) hsize (inRange_zeros _ _)
    (by rw [total_zeros]; exact request_length_pos auth)
  rw [zeros_length, total_zeros, Nat.sub_zero, List.nil_append] at h
  rw [DoIter_add, DoIter_add, fresh_to_write, h, DoIter_one, loopBody_write_transport _ _ _ rfl]
  simp only
  rw [offered_tail _ _ (Nat.le_refl _) hsize]
  simp

/-- A socket whose first `n` completions are 0 bytes makes `Do` issue at least
`n + 1` writes. -/
theorem Do_zeros_writes (auth : SOCKSAuthUsernamePassword) (n : Nat) (rest : List Reply)
    (hsize : (request auth).length < SIZE_MOD) :
    ∃ r s1 t1, Do OK (Initialize auth) ⟨zeros n ++ rest, []⟩ = some (r, s1, t1) ∧
      n + 1 ≤ (writesOf t1.log).length := by
  obtain ⟨r, s1, t1, hk, hDo⟩ := Do_total OK (Initialize auth) ⟨zeros n ++ rest, []⟩
  refine ⟨r, s1, t1, hDo, ?_⟩
  have h2 : 1 + 2 * n + 1 ≤ iterations ⟨zeros n ++ rest, []⟩ := by
    simp only [iterations, List.length_append, zeros_length]
    omega
  obtain ⟨d, hd⟩ := Nat.exists_eq_add_of_le h2
  have hp := DoIter_log_grows d
    (DoIter (1 + 2 * n + 1) (running OK (Initialize auth) ⟨zeros n ++ rest, []⟩))
  rw [← DoIter_add, ← hd, hk, zeros_then_write auth n rest hsize] at hp
  have hm := writesOf_length_mono hp
  rw [writesOf_append, List.length_append, writesOf_writeLog_length, zeros_length] at hm
  simpa [writesOf] using hm

/-- A socket that completes `n` writes with 0 bytes and then leaves the next
one pending: `Do` returns `ERR_IO_PENDING` after `n + 1` writes, each of the
whole request. -/
theorem Do_zeros_writes_pending (auth : SOCKSAuthUsernamePassword) (n : Nat)
    (hsize : (request auth).length < SIZE_MOD) :
    ∃ t1, Do OK (Initialize auth) ⟨zeros n, []⟩ = some (ERR_IO_PENDING,
        ⟨auth, STATE_WRITE_COMPLETE, request auth, (request auth).length, request auth⟩, t1) ∧
      t1.replies = [] ∧
      writesOf t1.log = List.replicate (n + 1) (request auth, (request auth).length) ∧
      readsOf t1.log = [] := by
  obtain ⟨rv1, io1, h⟩ := write_phase_partial auth (request auth) [] (zeros n)
    (request auth).length [] OK [] (Nat.le_refl _) hsize (inRange_zeros _ _)
    (by rw [total_zeros]; exact request_length_pos auth)
  rw [zeros_length, total_zeros, Nat.sub_zero, List.nil_append, List.append_nil] at h
  have hk : DoIter (1 + 2 * n + 1) (running OK (Initialize auth) ⟨zeros n, []⟩) =
      returned ERR_IO_PENDING
        ⟨auth, STATE_WRITE_COMPLETE, request auth, (request auth).length, request auth⟩
        ⟨[], writeLog (request auth) (request auth).length (zeros n)
          ++ [BeginEvent SOCKS5_AUTH_WRITE, Write (request auth) (request auth).length]⟩ := by
    rw [DoIter_add, DoIter_add, fresh_to_write, h, DoIter_one, write_unscripted _ _ _ rfl]
    simp only
    rw [offered_tail _ _ (Nat.le_refl _) hsize]
    simp
  refine ⟨_, Do_of_DoIter hk, rfl, ?_, ?_⟩
  · simp only [writesOf_append, writesOf_writeLog_zeros, Nat.sub_self, List.drop_zero]
    rw [List.replicate_succ']
    rfl
  · simp [readsOf_append, readsOf_writeLog, readsOf]

/-- A socket that, once the request is written, completes `n` reads with 0
bytes and then leaves the next one pending: `Do` returns `ERR_IO_PENDING`
after `n + 1` reads of 2 bytes each, with nothing in `buffer_`. -/
theorem Do_zeros_reads_pending (auth : SOCKSAuthUsernamePassword) (ws : List Reply) (w : Reply)
    (n : Nat) (hsize : (request auth).length < SIZE_MOD)
    (hw : inRange (request auth).length (ws ++ [w]) = true)
    (hwt : total ws < (request auth).length)
    (hwsum : total (ws ++ [w]) = (request auth).length) :
    ∃ t1, Do OK (Initialize auth) ⟨ws ++ w :: zeros n, []⟩ = some (ERR_IO_PENDING,
        ⟨auth, STATE_READ_COMPLETE, [], 2, IOBuffer 2⟩, t1) ∧
      t1.replies = [] ∧
      readsOf t1.log = List.replicate (n + 1) 2 := by
  obtain ⟨rv1, io1, h⟩ := read_phase_partial auth [] (zeros n) [] 2
    (IOBuffer kSOCKSAuthUsernamePasswordResponseLen) OK
    ([] ++ writeLog (request auth) (request auth).length (ws ++ [w])) (by decide)
    (inRange_zeros _ _) (dataMatches_zeros _) (by rw [total_zeros]; decide)
  rw [zeros_length, total_zeros, Nat.sub_zero, delivered_zeros, List.nil_append,
    List.append_nil, List.append_nil] at h
  have hk : DoIter (1 + (2 * ws.length + 2) + 1 + 2 * n + 1)
      (running OK (Initialize auth) ⟨ws ++ w :: zeros n, []⟩) =
      returned ERR_IO_PENDING ⟨auth, STATE_READ_COMPLETE, [], 2, IOBuffer 2⟩
        ⟨[], writeLog (request auth) (request auth).length (ws ++ [w]) ++ readLog 2 (zeros n)
          ++ [BeginEvent SOCKS5_AUTH_READ, Read 2]⟩ := by
    rw [DoIter_add, DoIter_add, fresh_to_read auth ws _ w [] hsize hw hwt hwsum,
      List.nil_append, h, DoIter_one, read_unscripted _ _ _ rfl]
  refine ⟨_, Do_of_DoIter hk, rfl, ?_⟩
  simp only [readsOf_append, readsOf_writeLog, readsOf_readLog, outstanding_zeros,
    List.nil_append]
  rw [List.replicate_succ']
  rfl

/-! ## Completions of at least one byte -/

theorem writesOf_snoc_write (log : List Event) (b : List Byte) (n : Nat) :
    writesOf (log ++ [BeginEvent SOCKS5_AUTH_WRITE, Write b n]) = writesOf log ++ [(b, n)] := by
  rw [writesOf_append]; rfl

theorem readsOf_snoc_write (log : List Event) (b : List Byte) (n : Nat) :
    readsOf (log ++ [BeginEvent SOCKS5_AUTH_WRITE, Write b n]) = readsOf log := by
  rw [readsOf_append]; exact List.append_nil _

theorem writesOf_snoc_read (log : List Event) (n : Nat) :
    writesOf (log ++ [BeginEvent SOCKS5_AUTH_READ, Read n]) = writesOf log := by
  rw [writesOf_append]; exact List.append_nil _

theorem readsOf_snoc_read (log : List Event) (n : Nat) :
    readsOf (log ++ [BeginEvent SOCKS5_AUTH_READ, Read n]) = readsOf log ++ [n] := by
  rw [readsOf_append]; rfl

theorem writesOf_snoc_end (log : List Event) (k : NetLogEventType) (c : Int) :
    writesOf (log ++ [EndEventWithNetErrorCode k c]) = writesOf log := by
  rw [writesOf_append]; exact List.append_nil _

theorem readsOf_snoc_end (log : List Event) (k : NetLogEventType) (c : Int) :
    readsOf (log ++ [EndEventWithNetErrorCode k c]) = readsOf log := by
  rw [readsOf_append]; exact List.append_nil _

/-- One iteration keeps the invariant, when the completion it processes makes
progress. -/
theorem loopBody_withinBounds (len : Nat) (hlen : len < SIZE_MOD) (c : Config)
    (h : withinBounds len c) (hp : makesProgress c = true) :
    withinBounds len (loopBody c) := by
  cases c with
  | returned rv s t => exact h
  | running rv s t =>
    obtain ⟨auth, st, buf, left, io⟩ := s
    obtain ⟨replies, log⟩ := t
    cases st
    · simp only [withinBounds] at h
      rw [loopBody_init_write _ _ _ rfl]
      simp only [withinBounds]
      obtain ⟨hL, hW, hR⟩ := h
      have := request_length_pos auth
      rw [hW]
      simp only [List.length_nil, Nat.zero_add]
      exact ⟨by omega, by omega, hR⟩
    · simp only [withinBounds] at h
      obtain ⟨hW, h1, hR⟩ := h
      simp only [loopBody, step_write rv ⟨auth, STATE_WRITE, buf, left, io⟩ ⟨replies, log⟩ rfl]
      split_ifs
      · simp only [withinBounds, writesOf_snoc_write, readsOf_snoc_write, List.length_append,
          List.length_singleton]
        exact ⟨by omega, h1, by omega, hR⟩
      · simp only [withinBounds, writesOf_snoc_write, readsOf_snoc_write, List.length_append,
          List.length_singleton, hR, List.length_nil]
        exact ⟨by omega, by omega⟩
    · simp only [withinBounds] at h
      obtain ⟨hW, h1, hle, hR⟩ := h
      by_cases hneg : rv < 0
      · rw [loopBody_ret (step_write_complete_neg _ _ _ rfl hneg)]
        simp only [withinBounds, writesOf_snoc_end, readsOf_snoc_end, hR, List.length_nil]
        exact ⟨by omega, by omega⟩
      · simp only [makesProgress, hneg, decide_False, Bool.false_or, Bool.and_eq_true,
          decide_eq_true_eq, or_true, true_or, if_true] at hp
        obtain ⟨hrv1, hrvl⟩ := hp
        have hpos : 1 ≤ rv.toNat := by omega
        rw [loopBody_brk (step_write_complete _ _ _ rfl (by omega)) OK_ne_pending]
        simp only
        rw [size_sub_of_le hrvl (by omega)]
        by_cases hz : left - rv.toNat = 0
        · simp only [hz, if_true, withinBounds, writesOf_snoc_end, readsOf_snoc_end]
          exact ⟨by omega, hR⟩
        · simp only [hz, if_false, withinBounds, writesOf_snoc_end, readsOf_snoc_end]
          exact ⟨by omega, by omega, hR⟩
    · simp only [withinBounds] at h
      obtain ⟨hW, hR⟩ := h
      rw [loopBody_brk (step_init_read _ _ _ rfl) OK_ne_pending]
      simp only [withinBounds, kSOCKSAuthUsernamePasswordResponseLen, hR, List.length_nil]
      exact ⟨hW, by omega, by omega⟩
    · simp only [withinBounds] at h
      obtain ⟨hW, hR, h1⟩ := h
      simp only [loopBody, step_read rv ⟨auth, STATE_READ, buf, left, io⟩ ⟨replies, log⟩ rfl]
      split_ifs
      · simp only [withinBounds, writesOf_snoc_read, readsOf_snoc_read, List.length_append,
          List.length_singleton]
        exact ⟨hW, by omega, h1⟩
      · simp only [withinBounds, writesOf_snoc_read, readsOf_snoc_read, List.length_append,
          List.length_singleton]
        exact ⟨hW, by omega⟩
    · simp only [withinBounds] at h
      obtain ⟨hW, hR, h1⟩ := h
      by_cases hneg : rv < 0
      · rw [loopBody_ret (step_read_complete_neg _ _ _ rfl hneg)]
        simp only [withinBounds, writesOf_snoc_end, readsOf_snoc_end]
        exact ⟨hW, by omega⟩
      · simp only [makesProgress, hneg, decide_False, Bool.false_or, Bool.and_eq_true,
          decide_eq_true_eq, or_true, true_or, if_true] at hp
        obtain ⟨hrv1, hrvl⟩ := hp
        have hpos : 1 ≤ rv.toNat := by omega
        have hS : (3 : Nat) < SIZE_MOD := by decide
        rw [loopBody_brk (step_read_complete _ _ _ rfl (by omega)) OK_ne_pending]
        simp only
        rw [size_sub_of_le hrvl (by omega)]
        by_cases hz : left - rv.toNat = 0
        · simp only [hz, if_true, withinBounds, writesOf_snoc_end, readsOf_snoc_end]
          exact ⟨hW, by omega⟩
        · simp only [hz, if_false, withinBounds, writesOf_snoc_end, readsOf_snoc_end]
          exact ⟨hW, by omega, by omega⟩
    · simp only [withinBounds] at h
      rw [loopBody_ret (step_done _ _ _ rfl)]
      exact h
    · simp only [withinBounds] at h
      rw [loopBody_ret (step_bad _ _ _ rfl)]
      exact h

theorem DoIter_withinBounds (len : Nat) (hlen : len < SIZE_MOD) (c : Config)
    (h : withinBounds len c) :
    ∀ k, (∀ j, j < k → makesProgress (DoIter j c) = true) → withinBounds len (DoIter k c) := by
  intro k
  induction k with
  | zero => intro _; exact h
  | succ k ih =>
    intro hp
    rw [DoIter_succ_last]
    exact loopBody_withinBounds len hlen _ (ih (fun j hj => hp j (Nat.lt_succ_of_lt hj)))
      (hp k (Nat.lt_succ_self k))

/-- When every completion the call sees is an error or a count of at least 1
byte and at most the bytes outstanding, the call issues at most as many writes
as the request has bytes and at most 2 reads. -/
theorem Do_bounded (auth : SOCKSAuthUsernamePassword) (replies : List Reply)
    (hsize : (request auth).length < SIZE_MOD)
    (hp : ∀ j, j < iterations ⟨replies, []⟩ →
      makesProgress (DoIter j (running OK (Initialize auth) ⟨replies, []⟩)) = true) :
    ∃ r s1 t1, Do OK (Initialize auth) ⟨replies, []⟩ = some (r, s1, t1) ∧
      (writesOf t1.log).length ≤ (request auth).length ∧ (readsOf t1.log).length ≤ 2 := by
  obtain ⟨r, s1, t1, hk, hDo⟩ := Do_total OK (Initialize auth) ⟨replies, []⟩
  have hb := DoIter_withinBounds (request auth).length hsize
    (running OK (Initialize auth) ⟨replies, []⟩) ⟨rfl, rfl, rfl⟩ _ hp
  rw [hk] at hb
  exact ⟨r, s1, t1, hDo, hb.1, hb.2⟩

/-- C13: a completion of 0 bytes makes no progress and is neither an error
nor the end of the stream.  After a write (a read) that completes with 0, the
object is in `STATE_WRITE` (`STATE_READ`) again with `buffer_` and
`buffer_left_` as before, so the same socket call with the same length is
issued again.  Hence a socket whose first `n` completions are 0 makes `Do`
issue at least `n + 1` writes; if it then leaves the call pending, `Do` has
returned `ERR_IO_PENDING`, not a terminal result, after `n + 1` writes of the
whole request, and likewise after `n + 1` reads of 2 bytes when the zeros
come once the request is written.  So no number bounds the socket calls of
one call of `Do`.  When every completion is an error or a count of at least 1
byte (and at most the bytes outstanding), at most as many writes as the
request has bytes and at most 2 reads are issued. -/
theorem C13_zero_byte_completions :
    (∀ (auth : SOCKSAuthUsernamePassword) (b io : List Byte) (left : Nat) (rv : Int) (r : Reply)
        (rest : List Reply) (log : List Event),
      0 < left → left ≤ b.length → b.length < SIZE_MOD → r.rv = 0 →
      DoIter 2 (running rv ⟨auth, STATE_WRITE, b, left, io⟩ ⟨r :: rest, log⟩) =
        running OK ⟨auth, STATE_WRITE, b, left, b.drop (b.length - left)⟩
          ⟨rest, log ++ [BeginEvent SOCKS5_AUTH_WRITE, Write (b.drop (b.length - left)) left,
            EndEventWithNetErrorCode SOCKS5_AUTH_WRITE 0]⟩) ∧
    (∀ (auth : SOCKSAuthUsernamePassword) (acc io : List Byte) (left : Nat) (rv : Int)
        (r : Reply) (rest : List Reply) (log : List Event),
      0 < left → left < SIZE_MOD → r.rv = 0 →
      DoIter 2 (running rv ⟨auth, STATE_READ, acc, left, io⟩ ⟨r :: rest, log⟩) =
        running OK ⟨auth, STATE_READ, acc, left, store (IOBuffer left) r.data⟩
          ⟨rest, log ++ [BeginEvent SOCKS5_AUTH_READ, Read left,
            EndEventWithNetErrorCode SOCKS5_AUTH_READ 0]⟩) ∧
    (∀ (u p : List Byte) (n : Nat) (rest : List Reply), 3 + u.length + p.length < SIZE_MOD →
      ∃ r s1 t1, Do OK (Initialize ⟨u, p⟩) ⟨zeros n ++ rest, []⟩ = some (r, s1, t1) ∧
        n + 1 ≤ (writesOf t1.log).length) ∧
    (∀ (u p : List Byte) (n : Nat), 3 + u.length + p.length < SIZE_MOD →
      ∃ s1 t1, Do OK (Initialize ⟨u, p⟩) ⟨zeros n, []⟩ = some (ERR_IO_PENDING, s1, t1) ∧
        s1.next_state_ = STATE_WRITE_COMPLETE ∧
        s1.buffer_left_ = 3 + u.length + p.length ∧
        writesOf t1.log = List.replicate (n + 1) (request ⟨u, p⟩, 3 + u.length + p.length) ∧
        readsOf t1.log = []) ∧
    (∀ (u p : List Byte) (ws : List Reply) (w : Reply) (n : Nat),
      3 + u.length + p.length < SIZE_MOD →
      inRange (3 + u.length + p.length) (ws ++ [w]) = true →
      total ws < 3 + u.length + p.length →
      total (ws ++ [w]) = 3 + u.length + p.length →
      ∃ s1 t1, Do OK (Initialize ⟨u, p⟩) ⟨ws ++ w :: zeros n, []⟩
          = some (ERR_IO_PENDING, s1, t1) ∧
        s1.next_state_ = STATE_READ_COMPLETE ∧ s1.buffer_ = [] ∧ s1.buffer_left_ = 2 ∧
        readsOf t1.log = List.replicate (n + 1) 2) ∧
    (∀ (u p : List Byte) (bound : Nat), 3 + u.length + p.length < SIZE_MOD →
      ∃ replies r s1 t1, Do OK (Initialize ⟨u, p⟩) ⟨replies, []⟩ = some (r, s1, t1) ∧
        bound < (writesOf t1.log).length) ∧
    (∀ (u p : List Byte) (replies : List Reply), 3 + u.length + p.length < SIZE_MOD →
      (∀ j, j < iterations ⟨replies, []⟩ →
        makesProgress (DoIter j (running OK (Initialize ⟨u, p⟩) ⟨replies, []⟩)) = true) →
      ∃ r s1 t1, Do OK (Initialize ⟨u, p⟩) ⟨replies, []⟩ = some (r, s1, t1) ∧
        (writesOf t1.log).length ≤ 3 + u.length + p.length ∧
        (readsOf t1.log).length ≤ 2) := by
  refine ⟨?_, ?_, ?_, ?_, ?_, ?_, ?_⟩
  · intro auth b io left rv r rest log hpos hl hb hr
    exact write_zero auth b io left rv r rest log hpos hl hb hr
  · intro auth acc io left rv r rest log hpos hb hr
    exact read_zero auth acc io left rv r rest log hpos hb hr
  · intro u p n rest hsize
    rw [← request_length3 u p] at hsize
    exact Do_zeros_writes ⟨u, p⟩ n rest hsize
  · intro u p n hsize
    rw [← request_length3 u p] at hsize ⊢
    obtain ⟨t1, h, _, hw, hr⟩ := Do_zeros_writes_pending ⟨u, p⟩ n hsize
    exact ⟨_, t1, h, rfl, rfl, hw, hr⟩
  · intro u p ws w n hsize hw hwt hwsum
    rw [← request_length3 u p] at hsize hw hwt hwsum
    obtain ⟨t1, h, _, hr⟩ := Do_zeros_reads_pending ⟨u, p⟩ ws w n hsize hw hwt hwsum
    exact ⟨_, t1, h, rfl, rfl, rfl, hr⟩
  · intro u p bound hsize
    rw [← request_length3 u p] at hsize
    obtain ⟨r, s1, t1, h, hn⟩ := Do_zeros_writes ⟨u, p⟩ bound [] hsize
    exact ⟨zeros bound ++ [], r, s1, t1, h, by omega⟩
  · intro u p replies hsize hp
    rw [← request_length3 u p] at hsize ⊢
    exact Do_bounded ⟨u, p⟩ replies hsize hp

/-- C13 for "bob" / "secret": a write and a read that complete with 0 bytes,
three completions of 0 bytes followed by a write of all 12 bytes, three
completions of 0 bytes and nothing more, the request written and then three
reads of 0 bytes, more than 5 writes, and the exchange in which the write
takes 12 bytes and the read returns 2. -/
theorem C13_zero_byte_completions_witness :
    (DoIter 2 (running OK ⟨⟨bob, secret⟩, STATE_WRITE, request ⟨bob, secret⟩, 7, []⟩
        ⟨⟨0, []⟩ :: [], []⟩) =
      running OK ⟨⟨bob, secret⟩, STATE_WRITE, request ⟨bob, secret⟩, 7,
          (request ⟨bob, secret⟩).drop ((request ⟨bob, secret⟩).length - 7)⟩
        ⟨[], [] ++ [BeginEvent SOCKS5_AUTH_WRITE,
          Write ((request ⟨bob, secret⟩).drop ((request ⟨bob, secret⟩).length - 7)) 7,
          EndEventWithNetErrorCode SOCKS5_AUTH_WRITE 0]⟩) ∧
    (DoIter 2 (running OK ⟨⟨bob, secret⟩, STATE_READ, [0x01], 1, [0x01, 0x00]⟩
        ⟨⟨0, []⟩ :: [], []⟩) =
      running OK ⟨⟨bob, secret⟩, STATE_READ, [0x01], 1,
          store (IOBuffer 1) (⟨0, []⟩ : Reply).data⟩
        ⟨[], [] ++ [BeginEvent SOCKS5_AUTH_READ, Read 1,
          EndEventWithNetErrorCode SOCKS5_AUTH_READ 0]⟩) ∧
    (∃ r s1 t1, Do OK (Initialize ⟨bob, secret⟩) ⟨zeros 3 ++ [⟨12, []⟩], []⟩
        = some (r, s1, t1) ∧
      3 + 1 ≤ (writesOf t1.log).length) ∧
    (∃ s1 t1, Do OK (Initialize ⟨bob, secret⟩) ⟨zeros 3, []⟩ = some (ERR_IO_PENDING, s1, t1) ∧
      s1.next_state_ = STATE_WRITE_COMPLETE ∧
      s1.buffer_left_ = 3 + bob.length + secret.length ∧
      writesOf t1.log
        = List.replicate (3 + 1) (request ⟨bob, secret⟩, 3 + bob.length + secret.length) ∧
      readsOf t1.log = []) ∧
    (∃ s1 t1, Do OK (Initialize ⟨bob, secret⟩) ⟨[⟨5, []⟩] ++ ⟨7, []⟩ :: zeros 3, []⟩
        = some (ERR_IO_PENDING, s1, t1) ∧
      s1.next_state_ = STATE_READ_COMPLETE ∧ s1.buffer_ = [] ∧ s1.buffer_left_ = 2 ∧
      readsOf t1.log = List.replicate (3 + 1) 2) ∧
    (∃ replies r s1 t1, Do OK (Initialize ⟨bob, secret⟩) ⟨replies, []⟩ = some (r, s1, t1) ∧
      5 < (writesOf t1.log).length) ∧
    (∃ r s1 t1, Do OK (Initialize ⟨bob, secret⟩) ⟨[⟨12, []⟩, ⟨2, [0x01, 0x00]⟩], []⟩
        = some (r, s1, t1) ∧
      (writesOf t1.log).length ≤ 3 + bob.length + secret.length ∧
      (readsOf t1.log).length ≤ 2) :=
  ⟨C13_zero_byte_completions.1 ⟨bob, secret⟩ (request ⟨bob, secret⟩) [] 7 OK ⟨0, []⟩ [] []
      (by decide) (by decide) (by decide) rfl,
   C13_zero_byte_completions.2.1 ⟨bob, secret⟩ [0x01] [0x01, 0x00] 1 OK ⟨0, []⟩ [] []
      (by decide) (by decide) rfl,
   C13_zero_byte_completions.2.2.1 bob secret 3 [⟨12, []⟩] (by decide),
   C13_zero_byte_completions.2.2.2.1 bob secret 3 (by decide),
   C13_zero_byte_completions.2.2.2.2.1 bob secret [⟨5, []⟩] ⟨7, []⟩ 3
      (by decide) (by decide) (by decide) (by decide),
   C13_zero_byte_completions.2.2.2.2.2.1 bob secret 5 (by decide),
   C13_zero_byte_completions.2.2.2.2.2.2 bob secret [⟨12, []⟩, ⟨2, [0x01, 0x00]⟩]
      (by decide) (by decide)⟩

end net
